import Mathlib

/-!
Verification of the awesome-src plugin modules against their design
specification.

The repository contains three host-plugin components:

* `src/xkb.c` — an XKB keyboard-layout bridge (C, xcb),
* `src/unnamed/part_000` — the vertical stacking ("xterm") tiling layout (Lua),
* `src/lib/naughty/core.lua.in` — the naughty notification popup manager (Lua).

Each component is shallowly embedded below.  Lua numbers are doubles, but all
values the source manipulates (screen geometry, sizes, counters) are integral,
and every arithmetic operation in the translated code except three
divisions (`math.ceil(wa.height / rows)` in the layout, and the two `/ 2`
in the centering branch of `get_offset`) is exact on integers; those divisions
are modelled with exact integer ceiling division, respectively integer
division (exact on the even inputs used in all concrete instances).
External host state (xcb replies, the Lua VM stack, wibox widgets, timers)
is modelled by explicit inputs and explicit record fields, and the
host-independent control flow and arithmetic of the source is kept verbatim.
-/

namespace AwesomeSrc

/-! ## Part 1: the XKB keyboard bridge, from `src/xkb.c` -/

namespace Xkb

/-- Constant `XCB_XKB_NEW_KEYBOARD_NOTIFY` from `xcb/xkb.h` (event sub-type 0). -/
def XCB_XKB_NEW_KEYBOARD_NOTIFY : Nat := 0

/-- Constant `XCB_XKB_STATE_NOTIFY` from `xcb/xkb.h` (event sub-type 2). -/
def XCB_XKB_STATE_NOTIFY : Nat := 2

/-- Constant `XCB_XKB_NAMES_NOTIFY` from `xcb/xkb.h` (event sub-type 6). -/
def XCB_XKB_NAMES_NOTIFY : Nat := 6

/-- Constant `XCB_XKB_NKN_DETAIL_KEYCODES` from `xcb/xkb.h` (bit value 1). -/
def XCB_XKB_NKN_DETAIL_KEYCODES : Nat := 1

/-- Constant `XCB_XKB_STATE_PART_GROUP_STATE` from `xcb/xkb.h` (bit value 16). -/
def XCB_XKB_STATE_PART_GROUP_STATE : Nat := 16

/-- An incoming keyboard-extension event as read by `event_handle_xkb_notify`
(`src/xkb.c:120`): `pad0` is the event sub-type; `changed` is the changed-mask
field of the casted event struct (read both by the new-keyboard branch and the
state-notify branch); `group` is the group field of the state-notify struct. -/
structure XkbEvent where
  pad0 : Nat
  changed : Nat
  group : Nat
  deriving DecidableEq

/-- A signal emitted through `signal_object_emit` on the global signal object:
either `xkb::map_changed` with no payload, or `xkb::group_changed` with one
numeric payload. -/
inductive EmittedSignal where
  | map_changed
  | group_changed (group : Nat)
  deriving DecidableEq

/-- Model of `event_handle_xkb_notify` (`src/xkb.c:120-153`): the switch on
`event->pad0`, returning the list of signals emitted (in order). -/
def event_handle_xkb_notify (e : XkbEvent) : List EmittedSignal :=
  if e.pad0 = XCB_XKB_NEW_KEYBOARD_NOTIFY then
    if e.changed &&& XCB_XKB_NKN_DETAIL_KEYCODES ≠ 0 then [.map_changed] else []
  else if e.pad0 = XCB_XKB_NAMES_NOTIFY then [.map_changed]
  else if e.pad0 = XCB_XKB_STATE_NOTIFY then
    if e.changed &&& XCB_XKB_STATE_PART_GROUP_STATE ≠ 0 then [.group_changed e.group]
    else []
  else []

/-- The reply of `xcb_xkb_get_state_reply` as used by
`luaA_xkb_get_layout_group` (`src/xkb.c:48-65`): only the `group` field is
read. -/
structure XkbStateReply where
  group : Nat
  deriving DecidableEq

/-- The reply of `xcb_xkb_get_names_reply` after
`xcb_xkb_get_names_value_list_unpack`, as used by `luaA_xkb_get_group_names`
(`src/xkb.c:74-115`): only the unpacked `symbolsName` atom is read. -/
structure XkbNamesReply where
  symbolsName : Nat
  deriving DecidableEq

/-- A value pushed on the Lua stack by the bridge. -/
inductive LuaRet where
  | num (n : Nat)
  | str (s : String)
  deriving DecidableEq

/-- Model of `luaA_xkb_get_layout_group` (`src/xkb.c:48-65`).  The xcb reply is
an explicit input (`none` models a failed query).  The result is the list of
values pushed on the Lua stack. -/
def luaA_xkb_get_layout_group (state_r : Option XkbStateReply) : List LuaRet :=
  match state_r with
  | none => []
  | some r => [.num r.group]

/-- Model of `luaA_xkb_get_group_names` (`src/xkb.c:74-115`).  The names reply
and the atom-name resolver (`xcb_get_atom_name_reply`, `none` on failure) are
explicit inputs.  The result is the list of values pushed on the Lua stack
paired with the list of warnings issued through `luaA_warn`. -/
def luaA_xkb_get_group_names (name_r : Option XkbNamesReply)
    (atomName : Nat → Option String) : List LuaRet × List String :=
  match name_r with
  | none => ([], ["Failed to get xkb symbols name"])
  | some nr =>
    match atomName nr.symbolsName with
    | none => ([], ["Failed to get atom symbols name"])
    | some s => ([.str s], [])

end Xkb

/-! ## Part 2: the vertical stacking layout, from `src/unnamed/part_000` -/

namespace Xterm

/-- A geometry rectangle (`x`, `y`, `width`, `height`), the Lua table built for
each client by `do_xterm` and the shape of the work-area `p.workarea`. -/
structure LuaRect where
  x : Int
  y : Int
  width : Int
  height : Int
  deriving DecidableEq

/-- Exact integer model of Lua `math.ceil(a / b)` for `b > 0`:
`⌈a / b⌉ = -⌊(-a) / b⌋`, with `Int.fdiv` the flooring division. -/
def luaCeilDiv (a b : Int) : Int := -((-a).fdiv b)

/-- Model of `do_xterm` (`src/unnamed/part_000:16-35`): given the work area
`p.workarea` and the ordered client list `p.clients`, the `p.geometries`
mapping produced, as an ordered association list.  The source iterates
`ipairs(cls)` and sets `k = k - 1`, so `k` here is the 0-based index. -/
def do_xterm (wa : LuaRect) (cls : List Nat) : List (Nat × LuaRect) :=
  if cls.length > 0 then
    let rows : Int := cls.length
    let height : Int := luaCeilDiv wa.height rows
    cls.enum.map (fun kc =>
      (kc.2, { height := height, width := wa.width,
               y := height * (kc.1 : Int) + wa.y, x := 0 + wa.x }))
  else []

/-- Model of `xterm.arrange` (`src/unnamed/part_000:41-43`), which just calls
`do_xterm`. -/
def arrange (wa : LuaRect) (cls : List Nat) : List (Nat × LuaRect) :=
  do_xterm wa cls

end Xterm

/-! ## Part 3: the naughty notification manager, from `src/lib/naughty/core.lua.in`

The mutable module state (`naughty.notifications`, the `suspended` flag, the
id `counter`) is an explicit record `St`, threaded through the operations.
Wibox widgets are represented by the fields the source reads and writes on
them (`visible`, position); timers by their timeout and a started flag; the
invocation of a `destroy_cb` callback is recorded in an event log `cbLog`.
The recursive `get_offset`/`naughty.destroy`/`arrange` call cycle is modelled
with an explicit fuel parameter (`Res.fuelOut` meaning the computation was cut
off, which on genuinely diverging inputs happens for every fuel);
`Res.luaError` models a raised Lua error (indexing a nil value). -/

namespace Naughty

/-- The six valid values of a notification `position`
(`src/lib/naughty/core.lua.in:136-143`). -/
inductive Position where
  | top_left
  | top_middle
  | top_right
  | bottom_left
  | bottom_middle
  | bottom_right
  deriving DecidableEq, Fintype

/-- Lua `position:match("left")` over the six valid position names. -/
def posMatchLeft : Position → Bool
  | .top_left => true
  | .bottom_left => true
  | _ => false

/-- Lua `position:match("middle")` over the six valid position names. -/
def posMatchMiddle : Position → Bool
  | .top_middle => true
  | .bottom_middle => true
  | _ => false

/-- Lua `position:match("top")` over the six valid position names. -/
def posMatchTop : Position → Bool
  | .top_left => true
  | .top_middle => true
  | .top_right => true
  | _ => false

/-- A `gears.timer`: its `timeout` duration and whether it is started. -/
structure Timer where
  timeout : Int
  started : Bool
  deriving DecidableEq

/-- A notification object: the fields of the Lua notification table that the
translated code reads or writes (`visible` is the `box.visible` property of
its wibox; `boxX`/`boxY` its wibox geometry; `idx` the stored list index). -/
structure Notif where
  id : Nat
  screen : Nat
  position : Position
  width : Int
  height : Int
  visible : Bool
  timer : Option Timer
  timeout : Int
  hasDestroyCb : Bool
  boxX : Int
  boxY : Int
  idx : Int
  deriving DecidableEq

/-- A screen work-area rectangle (`capi.screen[s].workarea`). -/
structure Rect where
  x : Int
  y : Int
  width : Int
  height : Int
  deriving DecidableEq

/-- Per-screen state: the work area of the screen and the six per-position
notification lists (`naughty.notifications[s]`,
`src/lib/naughty/core.lua.in:134-144`). -/
structure ScreenState where
  workarea : Rect
  top_left : List Notif
  top_middle : List Notif
  top_right : List Notif
  bottom_left : List Notif
  bottom_middle : List Notif
  bottom_right : List Notif
  deriving DecidableEq

/-- `naughty.notifications[s][position]`. -/
def listAt (ss : ScreenState) : Position → List Notif
  | .top_left => ss.top_left
  | .top_middle => ss.top_middle
  | .top_right => ss.top_right
  | .bottom_left => ss.bottom_left
  | .bottom_middle => ss.bottom_middle
  | .bottom_right => ss.bottom_right

/-- Replace the list `naughty.notifications[s][position]`. -/
def setListAt (ss : ScreenState) : Position → List Notif → ScreenState
  | .top_left, l => { ss with top_left := l }
  | .top_middle, l => { ss with top_middle := l }
  | .top_right, l => { ss with top_right := l }
  | .bottom_left, l => { ss with bottom_left := l }
  | .bottom_middle, l => { ss with bottom_middle := l }
  | .bottom_right, l => { ss with bottom_right := l }

/-- The mutable configuration fields of `naughty.config` read by the
translated code (`src/lib/naughty/core.lua.in:79-85`). -/
structure Config where
  padding : Int
  spacing : Int
  deriving DecidableEq

/-- The module state: `naughty.notifications` per screen, the
`naughty.notifications.suspended` list, the `suspended` flag, the id
`counter`, and a log of `destroy_cb` invocations `(id, reason)`. -/
structure St where
  screens : List ScreenState
  suspendedL : List Notif
  suspendedFlag : Bool
  counter : Nat
  cbLog : List (Nat × Int)
  deriving DecidableEq

/-- `naughty.notificationClosedReason.silent` (`core.lua.in:110`). -/
def silent : Int := -1

/-- `naughty.notificationClosedReason.undefined` (`core.lua.in:114`). -/
def undefined : Int := 4

/-- The positions in the fixed order used to model Lua `pairs` traversal of a
`naughty.notifications[s]` table. -/
def positionsOrder : List Position :=
  [.top_left, .top_middle, .top_right, .bottom_left, .bottom_middle, .bottom_right]

/-- Result of a fueled computation: a value, fuel exhaustion, or a raised Lua
error. -/
inductive Res (α : Type) where
  | ok (val : α)
  | fuelOut
  | luaError
  deriving DecidableEq

/-- The `{ x = X, y = Y, idx = I }` table returned by `get_offset`. -/
structure Offset where
  x : Int
  y : Int
  idx : Int
  deriving DecidableEq

/-- The `existing` accumulator of `get_offset`
(`core.lua.in:195-198`): the summed heights plus spacing of the first `k`
notifications of the list. -/
def existingSum (cfg : Config) : List Notif → Nat → Int
  | _, 0 => 0
  | [], _ + 1 => 0
  | n :: t, k + 1 => n.height + cfg.spacing + existingSum cfg t k

/-- The `v.x` computation of `get_offset` (`core.lua.in:185-192`). -/
def xFor (cfg : Config) (ws : Rect) (pos : Position) (width : Int) : Int :=
  if posMatchLeft pos then ws.x + cfg.padding
  else if posMatchMiddle pos then ws.width / 2 - width / 2
  else ws.x + ws.width - (width + cfg.padding)

/-- The `v.y` computation of `get_offset` (`core.lua.in:200-205`). -/
def yFor (cfg : Config) (ws : Rect) (pos : Position) (existing height : Int) : Int :=
  if posMatchTop pos then ws.y + cfg.padding + existing
  else ws.y + ws.height - (cfg.padding + height + existing)

/-- Lua 5.1 `table.remove(l, pos)`: removes the element at the 1-based
position `pos` when it is in range, and otherwise leaves the array part of
the list unchanged. -/
def luaTableRemove (l : List Notif) (pos : Int) : List Notif :=
  if 1 ≤ pos ∧ pos ≤ (l.length : Int) then l.eraseIdx (pos - 1).toNat else l

/-- The suspended-list scan of `naughty.destroy` (`core.lua.in:239-244`):
remove the first entry whose box is the given notification box (box identity
is modelled by the notification id). -/
def removeFirstById (id : Nat) : List Notif → List Notif
  | [] => []
  | n :: t => if n.id = id then t else n :: removeFirstById id t

/-- The sibling mutation of `arrange` (`core.lua.in:225-226`): the fetched
notification object is mutated in place, so the update applies to the list
entry that is that object (found by id). -/
def updateFirstById (id : Nat) (f : Notif → Notif) : List Notif → List Notif
  | [] => []
  | n :: t => if n.id = id then f n :: t else n :: updateFirstById id f t

mutual

/-- Model of the local `get_offset` (`core.lua.in:179-216`).  `idxArg` and
`widthArg` are the optional `idx` and `width` parameters (`none` models nil,
resolved by the `idx or ...`/`width or ...` lines); `screen` is 1-based.  When
the computed `v.y` places the popup outside the work area, the oldest popup of
the list is destroyed and the offset recomputed with `idx - 1`
(`core.lua.in:207-212`). -/
def get_offset (cfg : Config) (fuel : Nat) (st : St) (screen : Nat)
    (position : Position) (idxArg : Option Int) (widthArg : Option Int)
    (height : Int) : Res (St × Offset) :=
  match fuel with
  | 0 => .fuelOut
  | fuel + 1 =>
    match st.screens[screen - 1]? with
    | none => .luaError
    | some ss =>
      let ws := ss.workarea
      let l := listAt ss position
      let idx : Int := idxArg.getD (l.length + 1)
      let widthR : Res Int :=
        match widthArg with
        | some w => .ok w
        | none =>
          if idx < 1 then .luaError
          else
            match l[(idx - 1).toNat]? with
            | some m => .ok m.width
            | none => .luaError
      match widthR with
      | .fuelOut => .fuelOut
      | .luaError => .luaError
      | .ok width =>
        if idx - 1 > (l.length : Int) then .luaError
        else
          let existing := existingSum cfg l (idx - 1).toNat
          let y := yFor cfg ws position existing height
          if y + height > ws.y + ws.height ∨ y < ws.y then
            match destroy cfg fuel st l[0]? none with
            | .fuelOut => .fuelOut
            | .luaError => .luaError
            | .ok stb =>
              get_offset cfg fuel stb.1 screen position (some (idx - 1)) (some width) height
          else
            .ok (st, { x := xFor cfg ws position width, y := y, idx := idx })
termination_by structural fuel

/-- Model of `naughty.destroy` (`core.lua.in:236-258`).  Returns the state and
`true` when the popup was destroyed, or the unchanged state and `false` (Lua
nil) otherwise.  The timer stop and wibox hiding mutate only the removed
object; a `destroy_cb` invocation is recorded in `cbLog`. -/
def destroy (cfg : Config) (fuel : Nat) (st : St) (notifArg : Option Notif)
    (reason : Option Int) : Res (St × Bool) :=
  match fuel with
  | 0 => .fuelOut
  | fuel + 1 =>
    match notifArg with
    | none => .ok (st, false)
    | some n =>
      if n.visible then
        let st1 :=
          if st.suspendedFlag then
            { st with suspendedL := removeFirstById n.id st.suspendedL }
          else st
        match st1.screens[n.screen - 1]? with
        | none => .luaError
        | some ss =>
          let st2 := { st1 with
            screens := st1.screens.set (n.screen - 1)
              (setListAt ss n.position (luaTableRemove (listAt ss n.position) n.idx)) }
          match arrange cfg fuel st2 n.screen with
          | .fuelOut => .fuelOut
          | .luaError => .luaError
          | .ok st3 =>
            let st4 :=
              if n.hasDestroyCb ∧ reason ≠ some silent then
                { st3 with cbLog := st3.cbLog ++ [(n.id, reason.getD undefined)] }
              else st3
            .ok (st4, true)
      else .ok (st, false)
termination_by structural fuel

/-- Model of the local `arrange` (`core.lua.in:221-229`): iterate the
positions of the screen. -/
def arrange (cfg : Config) (fuel : Nat) (st : St) (screen : Nat) : Res St :=
  match fuel with
  | 0 => .fuelOut
  | fuel + 1 =>
    match st.screens[screen - 1]? with
    | none => .luaError
    | some _ => arrangePos cfg fuel st screen positionsOrder
termination_by structural fuel

/-- The outer `for p, pos in pairs(...)` loop of `arrange`, over the remaining
positions. -/
def arrangePos (cfg : Config) (fuel : Nat) (st : St) (screen : Nat)
    (ps : List Position) : Res St :=
  match fuel with
  | 0 => .fuelOut
  | fuel + 1 =>
    match ps with
    | [] => .ok st
    | p :: ps =>
      match arrangeLoop cfg fuel st screen p 1 with
      | .fuelOut => .fuelOut
      | .luaError => .luaError
      | .ok st2 => arrangePos cfg fuel st2 screen ps
termination_by structural fuel

/-- The inner `for i, notification in pairs(...)` loop of `arrange` at 1-based
index `i`: fetch the current entry, recompute its offset, and mutate the
fetched object (`box:geometry` and `.idx`). -/
def arrangeLoop (cfg : Config) (fuel : Nat) (st : St) (screen : Nat)
    (p : Position) (i : Nat) : Res St :=
  match fuel with
  | 0 => .fuelOut
  | fuel + 1 =>
    match st.screens[screen - 1]? with
    | none => .luaError
    | some ss =>
      match (listAt ss p)[i - 1]? with
      | none => .ok st
      | some n =>
        match get_offset cfg fuel st screen p (some (i : Int)) (some n.width) n.height with
        | .fuelOut => .fuelOut
        | .luaError => .luaError
        | .ok stOff =>
          match stOff.1.screens[screen - 1]? with
          | none => .luaError
          | some ss2 =>
            let st3 := { stOff.1 with
              screens := stOff.1.screens.set (screen - 1)
                (setListAt ss2 p
                  (updateFirstById n.id
                    (fun m => { m with boxX := stOff.2.x, boxY := stOff.2.y, idx := stOff.2.idx })
                    (listAt ss2 p))) }
            arrangeLoop cfg fuel st3 screen p (i + 1)
termination_by structural fuel

end

/-- All notifications of all screens, screens in order and positions in
`positionsOrder` order: the traversal order of `naughty.getById`
(`core.lua.in:264-275`). -/
def allNotifs (st : St) : List Notif :=
  st.screens.flatMap (fun ss => positionsOrder.flatMap (fun p => listAt ss p))

/-- Model of `naughty.getById` (`core.lua.in:264-275`). -/
def getById (st : St) (id : Nat) : Option Notif :=
  (allNotifs st).find? (fun n => n.id == id)

/-- Timer `stop`. -/
def timerStop (t : Timer) : Timer := { t with started := false }

/-- Timer `start` (a started timer stays started; `gears.timer` only prints an
error when starting an already started timer). -/
def timerStart (t : Timer) : Timer := { t with started := true }

/-- Model of the local `set_timeout` (`core.lua.in:280-293`): when `timeout >
0`, install a fresh timer of that duration, started unless notifications are
suspended; otherwise leave the timer field alone. -/
def set_timeout (suspended : Bool) (n : Notif) (timeout : Int) : Notif :=
  if timeout > 0 then { n with timer := some { timeout := timeout, started := !suspended } }
  else n

/-- Model of `naughty.reset_timeout` (`core.lua.in:299-307`).  The source line
`local timeout = timeout or notification.timeout` reads the global `timeout`
(nil), not the `new_timeout` parameter, so the local always resolves to
`notification.timeout`.  The final `notification.timer:start()` raises (result
`none`) when no timer is installed. -/
def reset_timeout (suspended : Bool) (n : Notif) (new_timeout : Int) : Option Notif :=
  let n1 :=
    match n.timer with
    | some t => { n with timer := some (timerStop t) }
    | none => n
  let timeout := n1.timeout
  let n2 := set_timeout suspended n1 timeout
  let n3 := { n2 with timeout := timeout }
  match n3.timer with
  | some t => some { n3 with timer := some (timerStart t) }
  | none => none

/-- The crop-to-workarea step of `naughty.notify` (`core.lua.in:620-627`),
applied to the computed width and height. -/
def crop_to_workarea (padding border_width : Int) (workarea : Rect)
    (width height : Int) : Int × Int :=
  let w := if width > workarea.width - 2 * border_width - 2 * padding then
             workarea.width - 2 * border_width - 2 * padding
           else width
  let h := if height > workarea.height - 2 * border_width - 2 * padding then
             workarea.height - 2 * border_width - 2 * padding
           else height
  (w, h)

/-- The arguments of `naughty.notify` that the translated fragment reads
(after preset/default resolution).  `contentWidth`/`contentHeight` stand for
the width and height computed from the textbox, icon and actions widgets
(`core.lua.in:598-617`), which are host-toolkit values. -/
structure NotifyArgs where
  replaces_id : Option Nat
  timeout : Int
  screen : Nat
  position : Position
  contentWidth : Int
  contentHeight : Int
  border_width : Int
  hasDestroyCb : Bool
  deriving DecidableEq

/-- Model of the state-relevant fragment of `naughty.notify`
(`core.lua.in:408-672`): the replace-by-id step (`:442-460`), `set_timeout`
(`:467`), the crop to the work area (`:620-627`), the border-inclusive stored
size (`:629-631`), the `get_offset` placement (`:634-642`), the insertion into
the per-screen per-position list (`:663`) and the suspended handling
(`:665-668`).  Widget construction, markup and icon handling mutate only the
widget tree and are not part of the module state. -/
def notify_core (cfg : Config) (fuel : Nat) (st : St) (args : NotifyArgs) :
    Res (St × Notif) :=
  let destroyStep : Res St :=
    match args.replaces_id with
    | some rid =>
      match getById st rid with
      | some obj =>
        match destroy cfg fuel st (some obj) (some silent) with
        | .fuelOut => .fuelOut
        | .luaError => .luaError
        | .ok stb => .ok stb.1
      | none => .ok st
    | none => .ok st
  match destroyStep with
  | .fuelOut => .fuelOut
  | .luaError => .luaError
  | .ok st1 =>
    let idAndCounter : Nat × Nat :=
      match args.replaces_id with
      | some rid =>
        if rid ≤ st1.counter then (rid, st1.counter)
        else (st1.counter + 1, st1.counter + 1)
      | none => (st1.counter + 1, st1.counter + 1)
    let st2 := { st1 with counter := idAndCounter.2 }
    match st2.screens[args.screen - 1]? with
    | none => .luaError
    | some ss =>
      let wh := crop_to_workarea cfg.padding args.border_width ss.workarea
                  args.contentWidth args.contentHeight
      let nwidth := wh.1 + 2 * args.border_width
      let nheight := wh.2 + 2 * args.border_width
      let n0 : Notif := { id := idAndCounter.1, screen := args.screen,
                          position := args.position, width := nwidth,
                          height := nheight, visible := false, timer := none,
                          timeout := args.timeout,
                          hasDestroyCb := args.hasDestroyCb,
                          boxX := 0, boxY := 0, idx := 0 }
      let n1 := set_timeout st2.suspendedFlag n0 args.timeout
      match get_offset cfg fuel st2 args.screen args.position none (some nwidth) nheight with
      | .fuelOut => .fuelOut
      | .luaError => .luaError
      | .ok stOff =>
        let n2 := { n1 with boxX := stOff.2.x, boxY := stOff.2.y,
                            visible := !stOff.1.suspendedFlag, idx := stOff.2.idx }
        match stOff.1.screens[args.screen - 1]? with
        | none => .luaError
        | some ss3 =>
          let st4 := { stOff.1 with
            screens := stOff.1.screens.set (args.screen - 1)
              (setListAt ss3 args.position (listAt ss3 args.position ++ [n2])) }
          let st5 :=
            if st4.suspendedFlag then { st4 with suspendedL := st4.suspendedL ++ [n2] }
            else st4
          .ok (st5, n2)

/-! ### Derived predicates about the layout state

These predicates are not themselves source functions; they name conditions on
the model state (fitting inside the work area, well-formed index fields) under
which the behaviour of the recursive source functions is characterised by the
theorems below. -/

/-- The vertical-extent check of `get_offset` (`core.lua.in:208`) succeeds
(no eviction) for a popup of height `height` queried at 1-based index `k + 1`
of the list `l`: the computed `v.y` keeps the popup inside the work area. -/
def noEvictAt (cfg : Config) (ws : Rect) (pos : Position) (l : List Notif)
    (k : Nat) (height : Int) : Prop :=
  yFor cfg ws pos (existingSum cfg l k) height + height ≤ ws.y + ws.height ∧
  ws.y ≤ yFor cfg ws pos (existingSum cfg l k) height

instance (cfg : Config) (ws : Rect) (pos : Position) (l : List Notif)
    (k : Nat) (height : Int) : Decidable (noEvictAt cfg ws pos l k height) := by
  unfold noEvictAt
  infer_instance

/-- Every notification of the list fits at its own index: recomputing its
offset triggers no eviction. -/
def listFits (cfg : Config) (ws : Rect) (pos : Position) (l : List Notif) : Prop :=
  ∀ (k : Nat) (m : Notif), l[k]? = some m → noEvictAt cfg ws pos l k m.height

instance (cfg : Config) (ws : Rect) (pos : Position) (l : List Notif) :
    Decidable (listFits cfg ws pos l) :=
  decidable_of_iff
    (∀ (k : Nat) (hk : k < l.length), noEvictAt cfg ws pos l k (l.get ⟨k, hk⟩).height)
    (by
      unfold listFits
      constructor
      · intro hb k m hm
        obtain ⟨hk, hget⟩ := List.getElem?_eq_some_iff.mp hm
        have := hb k hk
        simpa [List.get_eq_getElem, hget] using this
      · intro hb k hk
        exact hb k _ (List.getElem?_eq_getElem hk))

/-- A popup of height `height` fits above the empty list: the base case of the
eviction recursion succeeds. -/
def fitsAlone (cfg : Config) (ws : Rect) (pos : Position) (height : Int) : Prop :=
  noEvictAt cfg ws pos [] 0 height

instance (cfg : Config) (ws : Rect) (pos : Position) (height : Int) :
    Decidable (fitsAlone cfg ws pos height) := by
  unfold fitsAlone
  infer_instance

/-- All heights stored in the list are nonnegative. -/
def heightsOK (l : List Notif) : Prop := ∀ n ∈ l, 0 ≤ n.height

instance (l : List Notif) : Decidable (heightsOK l) := by
  unfold heightsOK
  infer_instance

/-- The stored notification ids of the list are pairwise distinct. -/
def idsNodup (l : List Notif) : Prop := (l.map Notif.id).Nodup

instance (l : List Notif) : Decidable (idsNodup l) := by
  unfold idsNodup
  infer_instance

/-- Every notification stored on the screen records the screen number and the
position of the list that holds it: the consistency `naughty.notify`
establishes at insertion (`core.lua.in:655-663`). -/
def homeOK (screen : Nat) (ss : ScreenState) : Prop :=
  ∀ p : Position, ∀ m ∈ listAt ss p, m.screen = screen ∧ m.position = p

instance (screen : Nat) (ss : ScreenState) : Decidable (homeOK screen ss) := by
  unfold homeOK
  infer_instance

/-- Every notification's stored `idx` field is its 1-based index in its list:
the consistency `arrange` re-establishes (`core.lua.in:226`). -/
def idxOK (ss : ScreenState) : Prop :=
  ∀ (p : Position) (k : Nat) (m : Notif), (listAt ss p)[k]? = some m →
    m.idx = (k : Int) + 1

instance (ss : ScreenState) : Decidable (idxOK ss) :=
  decidable_of_iff
    (∀ (p : Position) (k : Nat) (hk : k < (listAt ss p).length),
      ((listAt ss p).get ⟨k, hk⟩).idx = (k : Int) + 1)
    (by
      unfold idxOK
      constructor
      · intro hb p k m hm
        obtain ⟨hk, hget⟩ := List.getElem?_eq_some_iff.mp hm
        have := hb p k hk
        simpa [List.get_eq_getElem, hget] using this
      · intro hb p k hk
        exact hb p _ _ (List.getElem?_eq_getElem hk))

/-- Replace the position list `p` of screen `screen` (1-based) in the state:
the state shape produced by the list updates of `destroy` and `arrange`. -/
def setScreenList (st : St) (screen : Nat) (p : Position) (l : List Notif) : St :=
  match st.screens[screen - 1]? with
  | none => st
  | some ss =>
    { st with screens := st.screens.set (screen - 1) (setListAt ss p l) }

/-- The value `arrange` writes back for the entry at 0-based index `j` of list
`l`: its freshly computed offset coordinates and index (`core.lua.in:224-226`,
with `get_offset` returning the no-eviction offsets). -/
def arrangeEntry (cfg : Config) (ws : Rect) (pos : Position) (l : List Notif)
    (j : Nat) (n : Notif) : Notif :=
  { n with boxX := xFor cfg ws pos n.width,
           boxY := yFor cfg ws pos (existingSum cfg l j) n.height,
           idx := (j : Int) + 1 }

/-- The list with every entry at 0-based index at least `j` replaced by its
`arrangeEntry`: the result of the (eviction-free) inner `arrange` loop started
at 1-based index `j + 1`. -/
def arrangedFrom (cfg : Config) (ws : Rect) (pos : Position) (l : List Notif)
    (j : Nat) : List Notif :=
  l.enum.map (fun kn => if j ≤ kn.1 then arrangeEntry cfg ws pos l kn.1 kn.2 else kn.2)

/-- The screen state after the (eviction-free) `arrange` has processed the
given positions in order. -/
def arrangePosResult (cfg : Config) : ScreenState → List Position → ScreenState
  | ss, [] => ss
  | ss, p :: ps =>
    arrangePosResult cfg
      (setListAt ss p (arrangedFrom cfg ss.workarea p (listAt ss p) 0)) ps

/-- Total number of notifications on a screen. -/
def screenTotal (ss : ScreenState) : Nat :=
  (positionsOrder.map (fun p => (listAt ss p).length)).sum

/-- The screen after removing the entry at 0-based index `i` from position
`pos`: the list shape produced by the `table.remove` of `naughty.destroy`. -/
def erasedScreen (ss : ScreenState) (pos : Position) (i : Nat) : ScreenState :=
  setListAt ss pos ((listAt ss pos).eraseIdx i)

end Naughty

/-! ### Concrete instances used by the claim theorems below -/

/-- The standard configuration: `naughty.config.padding = 4`,
`naughty.config.spacing = 1` (`core.lua.in:79-81`). -/
def stdCfg : Naughty.Config := { padding := 4, spacing := 1 }

/-- A single screen with a 200 x 100 work area and no notifications. -/
def emptySS : Naughty.ScreenState :=
  { workarea := { x := 0, y := 0, width := 200, height := 100 },
    top_left := [], top_middle := [], top_right := [],
    bottom_left := [], bottom_middle := [], bottom_right := [] }

/-- The state with the single empty screen. -/
def emptySt : Naughty.St :=
  { screens := [emptySS], suspendedL := [], suspendedFlag := false,
    counter := 0, cbLog := [] }

/-- A screen whose work area starts at `x = 100`, with no notifications. -/
def c4SS : Naughty.ScreenState :=
  { workarea := { x := 100, y := 0, width := 200, height := 100 },
    top_left := [], top_middle := [], top_right := [],
    bottom_left := [], bottom_middle := [], bottom_right := [] }

/-- The state with the single `c4SS` screen. -/
def c4St : Naughty.St :=
  { screens := [c4SS], suspendedL := [], suspendedFlag := false,
    counter := 0, cbLog := [] }

/-- First notification of the C5 counterexample state: height 30, displayed
at the top of the stack. -/
def c5a : Naughty.Notif :=
  { id := 1, screen := 1, position := .top_right, width := 20, height := 30,
    visible := true, timer := none, timeout := 5, hasDestroyCb := false,
    boxX := 176, boxY := 4, idx := 1 }

/-- Second notification of the C5 counterexample state: height 50, displayed
below `c5a`. -/
def c5b : Naughty.Notif :=
  { id := 2, screen := 1, position := .top_right, width := 20, height := 50,
    visible := true, timer := none, timeout := 5, hasDestroyCb := false,
    boxX := 176, boxY := 35, idx := 2 }

/-- Third notification of the C5 counterexample state: height 60, displayed
below `c5b`; its extent (86 + 60) reaches below the 100-high work area. -/
def c5c : Naughty.Notif :=
  { id := 3, screen := 1, position := .top_right, width := 20, height := 60,
    visible := true, timer := none, timeout := 5, hasDestroyCb := false,
    boxX := 176, boxY := 86, idx := 3 }

/-- The C5 counterexample screen: three stacked notifications at `top_right`. -/
def c5SS : Naughty.ScreenState :=
  { workarea := { x := 0, y := 0, width := 200, height := 100 },
    top_left := [], top_middle := [], top_right := [c5a, c5b, c5c],
    bottom_left := [], bottom_middle := [], bottom_right := [] }

/-- The C5 counterexample state. -/
def c5St : Naughty.St :=
  { screens := [c5SS], suspendedL := [], suspendedFlag := false,
    counter := 3, cbLog := [] }

/-- The state actually produced by destroying `c5a` in `c5St`: the sibling
`c5b` is also evicted by the re-arrange, and `c5c` moves to the top. -/
def c5final : Naughty.St :=
  { screens := [{ workarea := { x := 0, y := 0, width := 200, height := 100 },
                  top_left := [], top_middle := [],
                  top_right := [{ c5c with boxY := 4, idx := 1 }],
                  bottom_left := [], bottom_middle := [], bottom_right := [] }],
    suspendedL := [], suspendedFlag := false, counter := 3, cbLog := [] }

/-- The stored size `naughty.notify` gives a new popup: the content size
cropped to the work area (`core.lua.in:620-627`) plus twice the border width
(`core.lua.in:629-631`). -/
def notifySize (cfg : Naughty.Config) (args : Naughty.NotifyArgs)
    (wa : Naughty.Rect) : Int × Int :=
  let wh := Naughty.crop_to_workarea cfg.padding args.border_width wa
    args.contentWidth args.contentHeight
  (wh.1 + 2 * args.border_width, wh.2 + 2 * args.border_width)

/-- The old notification of the C2 counterexample: created while notifications
were suspended, so its popup widget is not visible. -/
def c2old : Naughty.Notif :=
  { id := 6, screen := 1, position := .top_right, width := 20, height := 30,
    visible := false, timer := some { timeout := 5, started := false },
    timeout := 5, hasDestroyCb := true, boxX := 176, boxY := 4, idx := 1 }

/-- The C2 counterexample screen holding the suspended `c2old`. -/
def c2SS : Naughty.ScreenState :=
  { workarea := { x := 0, y := 0, width := 200, height := 100 },
    top_left := [], top_middle := [], top_right := [c2old],
    bottom_left := [], bottom_middle := [], bottom_right := [] }

/-- The C2 counterexample state: notifications suspended, `c2old` in both its
position list and the suspended list. -/
def c2St : Naughty.St :=
  { screens := [c2SS], suspendedL := [c2old], suspendedFlag := true,
    counter := 6, cbLog := [] }

/-- The `notify` arguments of the C2 counterexample: replace id 6. -/
def c2args : Naughty.NotifyArgs :=
  { replaces_id := some 6, timeout := 5, screen := 1, position := .top_right,
    contentWidth := 14, contentHeight := 28, border_width := 1,
    hasDestroyCb := false }

/-- The notification returned by the C2 counterexample call: it reuses id 6. -/
def c2new : Naughty.Notif :=
  { id := 6, screen := 1, position := .top_right, width := 16, height := 30,
    visible := false, timer := some { timeout := 5, started := false },
    timeout := 5, hasDestroyCb := false, boxX := 180, boxY := 35, idx := 2 }

/-- The state produced by the C2 counterexample call: the old notification is
still present below the new one. -/
def c2final : Naughty.St :=
  { screens := [{ workarea := { x := 0, y := 0, width := 200, height := 100 },
                  top_left := [], top_middle := [],
                  top_right := [c2old, c2new],
                  bottom_left := [], bottom_middle := [],
                  bottom_right := [] }],
    suspendedL := [c2old, c2new], suspendedFlag := true, counter := 6,
    cbLog := [] }

/-- The old notification of the C2 amended witness: a visible popup. -/
def c2wOld : Naughty.Notif :=
  { id := 3, screen := 1, position := .top_right, width := 20, height := 30,
    visible := true, timer := some { timeout := 5, started := true },
    timeout := 5, hasDestroyCb := true, boxX := 176, boxY := 4, idx := 1 }

/-- The C2 amended witness screen. -/
def c2wSS : Naughty.ScreenState :=
  { workarea := { x := 0, y := 0, width := 200, height := 100 },
    top_left := [], top_middle := [], top_right := [c2wOld],
    bottom_left := [], bottom_middle := [], bottom_right := [] }

/-- The C2 amended witness state. -/
def c2wSt : Naughty.St :=
  { screens := [c2wSS], suspendedL := [], suspendedFlag := false,
    counter := 3, cbLog := [] }

/-- The C2 amended witness arguments: replace the visible id 3. -/
def c2wArgs : Naughty.NotifyArgs :=
  { replaces_id := some 3, timeout := 5, screen := 1, position := .top_right,
    contentWidth := 14, contentHeight := 28, border_width := 1,
    hasDestroyCb := false }

/-- First notification of the C5 witness state (a fully arranged, fitting
stack of two popups). -/
def c5wA : Naughty.Notif :=
  { id := 1, screen := 1, position := .top_right, width := 20, height := 30,
    visible := true, timer := none, timeout := 5, hasDestroyCb := false,
    boxX := 176, boxY := 4, idx := 1 }

/-- Second notification of the C5 witness state. -/
def c5wB : Naughty.Notif :=
  { id := 2, screen := 1, position := .top_right, width := 20, height := 40,
    visible := true, timer := none, timeout := 5, hasDestroyCb := false,
    boxX := 176, boxY := 35, idx := 2 }

/-- The C5 witness screen. -/
def c5wSS : Naughty.ScreenState :=
  { workarea := { x := 0, y := 0, width := 200, height := 100 },
    top_left := [], top_middle := [], top_right := [c5wA, c5wB],
    bottom_left := [], bottom_middle := [], bottom_right := [] }

/-- The C5 witness state. -/
def c5wSt : Naughty.St :=
  { screens := [c5wSS], suspendedL := [], suspendedFlag := false,
    counter := 2, cbLog := [] }

/-- The notification of the C3 amended witness: a visible 60-high popup that
must be evicted before a second 60-high popup can be placed. -/
def c3wN : Naughty.Notif :=
  { id := 1, screen := 1, position := .top_right, width := 20, height := 60,
    visible := true, timer := none, timeout := 5, hasDestroyCb := false,
    boxX := 176, boxY := 4, idx := 1 }

/-- The C3 amended witness screen. -/
def c3wSS : Naughty.ScreenState :=
  { workarea := { x := 0, y := 0, width := 200, height := 100 },
    top_left := [], top_middle := [], top_right := [c3wN],
    bottom_left := [], bottom_middle := [], bottom_right := [] }

/-- The C3 amended witness state. -/
def c3wSt : Naughty.St :=
  { screens := [c3wSS], suspendedL := [], suspendedFlag := false,
    counter := 1, cbLog := [] }

/-- A notification with stored timeout 0 (and hence no expiry timer), as
`naughty.notify` creates for `timeout = 0` requests. -/
def c7notif : Naughty.Notif :=
  { id := 1, screen := 1, position := .top_right, width := 10, height := 10,
    visible := true, timer := none, timeout := 0, hasDestroyCb := false,
    boxX := 0, boxY := 0, idx := 1 }

/-- The input notification of the C7 amended witness. -/
def c7notif5 : Naughty.Notif := { c7notif with timeout := 5 }

end AwesomeSrc

namespace AwesomeSrc

open Naughty

theorem existingSum_nil (cfg : Naughty.Config) (k : Nat) :
    Naughty.existingSum cfg [] k = 0 := by
  cases k <;> rfl

/-! ### Structural helper lemmas about the state model -/

theorem listAt_setListAt (ss : Naughty.ScreenState) (p q : Naughty.Position)
    (l : List Naughty.Notif) :
    Naughty.listAt (Naughty.setListAt ss p l) q =
      if q = p then l else Naughty.listAt ss q := by
  cases p <;> cases q <;> simp [Naughty.setListAt, Naughty.listAt]

theorem setListAt_setListAt (ss : Naughty.ScreenState) (p : Naughty.Position)
    (l1 l2 : List Naughty.Notif) :
    Naughty.setListAt (Naughty.setListAt ss p l1) p l2 =
      Naughty.setListAt ss p l2 := by
  cases p <;> rfl

theorem setListAt_listAt (ss : Naughty.ScreenState) (p : Naughty.Position) :
    Naughty.setListAt ss p (Naughty.listAt ss p) = ss := by
  cases p <;> rfl

theorem workarea_setListAt (ss : Naughty.ScreenState) (p : Naughty.Position)
    (l : List Naughty.Notif) :
    (Naughty.setListAt ss p l).workarea = ss.workarea := by
  cases p <;> rfl

/-- `existingSum` as a prefix sum of the height-plus-spacing list. -/
theorem existingSum_eq (cfg : Naughty.Config) (l : List Naughty.Notif) (k : Nat) :
    Naughty.existingSum cfg l k =
      ((l.map (fun n => n.height + cfg.spacing)).take k).sum := by
  induction l generalizing k with
  | nil => cases k <;> simp [Naughty.existingSum]
  | cons n t ih =>
    cases k with
    | zero => simp [Naughty.existingSum]
    | succ k => simp [Naughty.existingSum, ih]

/-- `existingSum` only depends on the heights of the list entries. -/
theorem existingSum_congr (cfg : Naughty.Config) (l1 l2 : List Naughty.Notif)
    (k : Nat)
    (h : l1.map (fun n => n.height + cfg.spacing) =
         l2.map (fun n => n.height + cfg.spacing)) :
    Naughty.existingSum cfg l1 k = Naughty.existingSum cfg l2 k := by
  rw [existingSum_eq, existingSum_eq, h]

theorem set_of_getElem? {α : Type} (l : List α) (i : Nat) (a : α)
    (h : l[i]? = some a) : l.set i a = l := by
  induction l generalizing i with
  | nil => simp at h
  | cons b t ih =>
    cases i with
    | zero =>
      simp only [List.getElem?_cons_zero, Option.some.injEq] at h
      simp [h]
    | succ i =>
      simp only [List.getElem?_cons_succ] at h
      simp [List.set_cons_succ, ih i h]

theorem updateFirstById_eq_set (l : List Naughty.Notif) (i : Nat)
    (n : Naughty.Notif) (f : Naughty.Notif → Naughty.Notif)
    (hnd : Naughty.idsNodup l) (h : l[i]? = some n) :
    Naughty.updateFirstById n.id f l = l.set i (f n) := by
  induction l generalizing i with
  | nil => simp at h
  | cons b t ih =>
    unfold Naughty.idsNodup at hnd
    simp only [List.map_cons, List.nodup_cons] at hnd
    cases i with
    | zero =>
      simp only [List.getElem?_cons_zero, Option.some.injEq] at h
      subst h
      simp [Naughty.updateFirstById]
    | succ i =>
      simp only [List.getElem?_cons_succ] at h
      have hmem : n ∈ t := by
        have := List.getElem?_eq_some_iff.mp h
        obtain ⟨hlt, hget⟩ := this
        exact hget ▸ List.getElem_mem hlt
      have hne : b.id ≠ n.id := by
        intro hcon
        exact hnd.1 (hcon ▸ List.mem_map_of_mem Naughty.Notif.id hmem)
      unfold Naughty.updateFirstById
      rw [if_neg hne]
      rw [ih i hnd.2 h]
      rfl

/-! ### Lemmas about `arrangedFrom` -/

theorem arrangedFrom_getElem? (cfg : Naughty.Config) (ws : Naughty.Rect)
    (pos : Naughty.Position) (l : List Naughty.Notif) (j k : Nat) :
    (Naughty.arrangedFrom cfg ws pos l j)[k]? =
      (l[k]?).map
        (fun n => if j ≤ k then Naughty.arrangeEntry cfg ws pos l k n else n) := by
  unfold Naughty.arrangedFrom
  rw [List.getElem?_map, List.getElem?_enum]
  cases l[k]? <;> rfl

theorem arrangedFrom_length (cfg : Naughty.Config) (ws : Naughty.Rect)
    (pos : Naughty.Position) (l : List Naughty.Notif) (j : Nat) :
    (Naughty.arrangedFrom cfg ws pos l j).length = l.length := by
  unfold Naughty.arrangedFrom
  simp

theorem arrangeEntry_congr (cfg : Naughty.Config) (ws : Naughty.Rect)
    (pos : Naughty.Position) (l1 l2 : List Naughty.Notif) (j : Nat)
    (n : Naughty.Notif)
    (h : Naughty.existingSum cfg l1 j = Naughty.existingSum cfg l2 j) :
    Naughty.arrangeEntry cfg ws pos l1 j n =
      Naughty.arrangeEntry cfg ws pos l2 j n := by
  unfold Naughty.arrangeEntry
  rw [h]

theorem arrangedFrom_ge (cfg : Naughty.Config) (ws : Naughty.Rect)
    (pos : Naughty.Position) (l : List Naughty.Notif) (j : Nat)
    (h : l.length ≤ j) : Naughty.arrangedFrom cfg ws pos l j = l := by
  apply List.ext_getElem?
  intro k
  rw [arrangedFrom_getElem?]
  cases hk : l[k]? with
  | none => rfl
  | some n =>
    have hlt : k < l.length := (List.getElem?_eq_some_iff.mp hk).1
    have hnle : ¬ j ≤ k := by omega
    simp [hnle]

theorem map_arrangedFrom {α : Type} (cfg : Naughty.Config) (ws : Naughty.Rect)
    (pos : Naughty.Position) (l : List Naughty.Notif) (j : Nat)
    (f : Naughty.Notif → α)
    (hf : ∀ l2 j2 n, f (Naughty.arrangeEntry cfg ws pos l2 j2 n) = f n) :
    (Naughty.arrangedFrom cfg ws pos l j).map f = l.map f := by
  apply List.ext_getElem?
  intro k
  rw [List.getElem?_map, arrangedFrom_getElem?, List.getElem?_map]
  cases l[k]? with
  | none => rfl
  | some n =>
    simp only [Option.map_some']
    congr 1
    split
    · exact hf l k n
    · rfl

theorem heights_arrangedFrom (cfg : Naughty.Config) (ws : Naughty.Rect)
    (pos : Naughty.Position) (l : List Naughty.Notif) (j : Nat) :
    (Naughty.arrangedFrom cfg ws pos l j).map (fun n => n.height + cfg.spacing) =
      l.map (fun n => n.height + cfg.spacing) :=
  map_arrangedFrom cfg ws pos l j _ (fun _ _ _ => rfl)

theorem ids_arrangedFrom (cfg : Naughty.Config) (ws : Naughty.Rect)
    (pos : Naughty.Position) (l : List Naughty.Notif) (j : Nat) :
    (Naughty.arrangedFrom cfg ws pos l j).map Naughty.Notif.id =
      l.map Naughty.Notif.id :=
  map_arrangedFrom cfg ws pos l j _ (fun _ _ _ => rfl)

/-- Setting entry `i` to its `arrangeEntry` and arranging from `i + 1` equals
arranging from `i`: the step equation of the inner `arrange` loop. -/
theorem arrangedFrom_set_entry (cfg : Naughty.Config) (ws : Naughty.Rect)
    (pos : Naughty.Position) (l : List Naughty.Notif) (i : Nat)
    (n : Naughty.Notif) (h : l[i]? = some n) :
    Naughty.arrangedFrom cfg ws pos
        (l.set i (Naughty.arrangeEntry cfg ws pos l i n)) (i + 1) =
      Naughty.arrangedFrom cfg ws pos l i := by
  have hset : ∀ k : Nat,
      Naughty.existingSum cfg (l.set i (Naughty.arrangeEntry cfg ws pos l i n)) k =
        Naughty.existingSum cfg l k := by
    intro k
    apply existingSum_congr
    rw [List.map_set]
    exact set_of_getElem? _ _ _ (by rw [List.getElem?_map, h]; rfl)
  apply List.ext_getElem?
  intro k
  rw [arrangedFrom_getElem?, arrangedFrom_getElem?]
  rcases Nat.lt_trichotomy k i with hki | hki | hki
  · rw [List.getElem?_set_ne (by omega)]
    cases hk : l[k]? with
    | none => rfl
    | some m =>
      simp only [Option.map_some']
      rw [if_neg (by omega), if_neg (by omega)]
  · subst hki
    have hlt : k < l.length := (List.getElem?_eq_some_iff.mp h).1
    rw [List.getElem?_set_self hlt, h]
    simp only [Option.map_some']
    rw [if_neg (by omega), if_pos (by omega)]
  · rw [List.getElem?_set_ne (by omega)]
    cases hk : l[k]? with
    | none => rfl
    | some m =>
      simp only [Option.map_some']
      rw [if_pos (by omega), if_pos (by omega)]
      exact congrArg some (arrangeEntry_congr cfg ws pos _ l k m (hset k))

/-! ### Behaviour of the recursive functions when nothing is evicted -/

/-- `get_offset` with an in-range index whose popup fits returns immediately:
the offsets of the straight-line part of the source, with the state
unchanged. -/
theorem get_offset_noEvict (cfg : Naughty.Config) (fuel : Nat) (st : Naughty.St)
    (screen : Nat) (pos : Naughty.Position) (idx : Int) (w h : Int)
    (ss : Naughty.ScreenState) (hss : st.screens[screen - 1]? = some ss)
    (h1 : 1 ≤ idx) (h2 : idx ≤ (Naughty.listAt ss pos).length + 1)
    (hfit : Naughty.noEvictAt cfg ss.workarea pos (Naughty.listAt ss pos)
      (idx - 1).toNat h) :
    Naughty.get_offset cfg (fuel + 1) st screen pos (some idx) (some w) h =
      .ok (st, { x := Naughty.xFor cfg ss.workarea pos w,
                 y := Naughty.yFor cfg ss.workarea pos
                        (Naughty.existingSum cfg (Naughty.listAt ss pos)
                          (idx - 1).toNat) h,
                 idx := idx }) := by
  obtain ⟨hA, hB⟩ := hfit
  simp only [Naughty.get_offset, hss, Option.getD_some]
  rw [if_neg (by omega)]
  rw [if_neg (by push_neg; exact ⟨by omega, by omega⟩)]

/-- A nil `idx` argument resolves to one past the end of the list
(`core.lua.in:182`). -/
theorem get_offset_none (cfg : Naughty.Config) (fuel : Nat) (st : Naughty.St)
    (screen : Nat) (pos : Naughty.Position) (w : Option Int) (h : Int)
    (ss : Naughty.ScreenState) (hss : st.screens[screen - 1]? = some ss) :
    Naughty.get_offset cfg (fuel + 1) st screen pos none w h =
      Naughty.get_offset cfg (fuel + 1) st screen pos
        (some ((Naughty.listAt ss pos).length + 1)) w h := by
  simp only [Naughty.get_offset, hss, Option.getD_some, Option.getD_none]

/-- `get_offset` with a nil index over a fully fitting list returns the slot
one past the end of the list, with no eviction. -/
theorem get_offset_nil_noEvict (cfg : Naughty.Config) (fuel : Nat)
    (st : Naughty.St) (screen : Nat) (pos : Naughty.Position) (w h : Int)
    (ss : Naughty.ScreenState) (hss : st.screens[screen - 1]? = some ss)
    (hfit : Naughty.noEvictAt cfg ss.workarea pos (Naughty.listAt ss pos)
      (Naughty.listAt ss pos).length h) :
    Naughty.get_offset cfg (fuel + 1) st screen pos none (some w) h =
      .ok (st, { x := Naughty.xFor cfg ss.workarea pos w,
                 y := Naughty.yFor cfg ss.workarea pos
                        (Naughty.existingSum cfg (Naughty.listAt ss pos)
                          (Naughty.listAt ss pos).length) h,
                 idx := ((Naughty.listAt ss pos).length : Int) + 1 }) := by
  rw [get_offset_none cfg fuel st screen pos (some w) h ss hss]
  have ht : ((((Naughty.listAt ss pos).length : Int) + 1) - 1).toNat =
      (Naughty.listAt ss pos).length := by omega
  have hgo := get_offset_noEvict cfg fuel st screen pos
    (((Naughty.listAt ss pos).length : Int) + 1) w h ss hss (by omega) (by omega)
    (by rw [ht]; exact hfit)
  rw [ht] at hgo
  exact hgo

/-- `set_timeout` changes only the timer field, never the id. -/
theorem set_timeout_id (b : Bool) (n : Naughty.Notif) (t : Int) :
    (Naughty.set_timeout b n t).id = n.id := by
  unfold Naughty.set_timeout
  split <;> rfl

theorem getElem?_setScreenList_self (st : Naughty.St) (screen : Nat)
    (p : Naughty.Position) (l : List Naughty.Notif) (ss : Naughty.ScreenState)
    (hss : st.screens[screen - 1]? = some ss) :
    (Naughty.setScreenList st screen p l).screens[screen - 1]? =
      some (Naughty.setListAt ss p l) := by
  simp only [Naughty.setScreenList, hss]
  exact List.getElem?_set_self (List.getElem?_eq_some_iff.mp hss).1

theorem setScreenList_self (st : Naughty.St) (screen : Nat)
    (p : Naughty.Position) (ss : Naughty.ScreenState)
    (hss : st.screens[screen - 1]? = some ss) :
    Naughty.setScreenList st screen p (Naughty.listAt ss p) = st := by
  simp only [Naughty.setScreenList, hss, setListAt_listAt,
    set_of_getElem? _ _ _ hss]

theorem setScreenList_setScreenList (st : Naughty.St) (screen : Nat)
    (p : Naughty.Position) (l1 l2 : List Naughty.Notif)
    (ss : Naughty.ScreenState) (hss : st.screens[screen - 1]? = some ss) :
    Naughty.setScreenList (Naughty.setScreenList st screen p l1) screen p l2 =
      Naughty.setScreenList st screen p l2 := by
  simp only [Naughty.setScreenList, hss,
    List.getElem?_set_self (List.getElem?_eq_some_iff.mp hss).1,
    List.set_set, setListAt_setListAt]

theorem suspendedFlag_setScreenList (st : Naughty.St) (screen : Nat)
    (p : Naughty.Position) (l : List Naughty.Notif) :
    (Naughty.setScreenList st screen p l).suspendedFlag = st.suspendedFlag := by
  unfold Naughty.setScreenList
  cases st.screens[screen - 1]? <;> rfl

theorem suspendedL_setScreenList (st : Naughty.St) (screen : Nat)
    (p : Naughty.Position) (l : List Naughty.Notif) :
    (Naughty.setScreenList st screen p l).suspendedL = st.suspendedL := by
  unfold Naughty.setScreenList
  cases st.screens[screen - 1]? <;> rfl

theorem counter_setScreenList (st : Naughty.St) (screen : Nat)
    (p : Naughty.Position) (l : List Naughty.Notif) :
    (Naughty.setScreenList st screen p l).counter = st.counter := by
  unfold Naughty.setScreenList
  cases st.screens[screen - 1]? <;> rfl

theorem cbLog_setScreenList (st : Naughty.St) (screen : Nat)
    (p : Naughty.Position) (l : List Naughty.Notif) :
    (Naughty.setScreenList st screen p l).cbLog = st.cbLog := by
  unfold Naughty.setScreenList
  cases st.screens[screen - 1]? <;> rfl

theorem noEvictAt_congr (cfg : Naughty.Config) (ws : Naughty.Rect)
    (pos : Naughty.Position) (l1 l2 : List Naughty.Notif) (k : Nat) (h : Int)
    (he : Naughty.existingSum cfg l1 k = Naughty.existingSum cfg l2 k) :
    Naughty.noEvictAt cfg ws pos l1 k h ↔ Naughty.noEvictAt cfg ws pos l2 k h := by
  unfold Naughty.noEvictAt
  rw [he]

/-- The inner `arrange` loop, when every entry from index `i` on fits, runs to
the end of the list without evicting anything and rewrites the suffix to its
`arrangeEntry` values. -/
theorem arrangeLoop_noEvict (cfg : Naughty.Config) (screen : Nat)
    (pos : Naughty.Position) :
    ∀ (fuel i : Nat) (st : Naughty.St) (ss : Naughty.ScreenState),
      st.screens[screen - 1]? = some ss →
      1 ≤ i →
      i ≤ (Naughty.listAt ss pos).length + 1 →
      (Naughty.listAt ss pos).length + 2 ≤ fuel + i →
      Naughty.idsNodup (Naughty.listAt ss pos) →
      (∀ (k : Nat) (m : Naughty.Notif), (Naughty.listAt ss pos)[k]? = some m →
        i - 1 ≤ k →
        Naughty.noEvictAt cfg ss.workarea pos (Naughty.listAt ss pos) k
          m.height) →
      Naughty.arrangeLoop cfg fuel st screen pos i =
        .ok { st with screens := (st.screens.set (screen - 1)
          (Naughty.setListAt ss pos
            (Naughty.arrangedFrom cfg ss.workarea pos (Naughty.listAt ss pos)
              (i - 1)))) } := by
  intro fuel
  induction fuel with
  | zero =>
    intro i st ss hss hi1 hi2 hfuel hnd hfits
    omega
  | succ fuel ih =>
    intro i st ss hss hi1 hi2 hfuel hnd hfits
    simp only [Naughty.arrangeLoop, hss]
    by_cases hend : (Naughty.listAt ss pos).length ≤ i - 1
    · rw [List.getElem?_eq_none hend]
      rw [arrangedFrom_ge cfg ss.workarea pos _ _ hend]
      rw [setListAt_listAt, set_of_getElem? _ _ _ hss]
    · push_neg at hend
      have hsome : (Naughty.listAt ss pos)[i - 1]? =
          some ((Naughty.listAt ss pos).get ⟨i - 1, hend⟩) :=
        List.getElem?_eq_getElem hend
      set l := Naughty.listAt ss pos with hl
      set n := l.get ⟨i - 1, hend⟩ with hn
      have htn : ((i : Int) - 1).toNat = i - 1 := by omega
      cases fuel with
      | zero => omega
      | succ fuel2 =>
        have hgo := get_offset_noEvict cfg fuel2 st screen pos (i : Int) n.width
          n.height ss hss (by omega) (by push_cast; omega) (by
            rw [htn]
            exact hfits (i - 1) n hsome (by omega))
        simp only [hsome, hgo, hss]
        have hidxeq : ((i - 1 : Nat) : Int) + 1 = (i : Int) := by omega
        have hupd : Naughty.updateFirstById n.id
            (fun m => { m with
              boxX := Naughty.xFor cfg ss.workarea pos n.width,
              boxY := Naughty.yFor cfg ss.workarea pos
                (Naughty.existingSum cfg l (((i : Int) - 1).toNat)) n.height,
              idx := (i : Int) }) l =
            l.set (i - 1) (Naughty.arrangeEntry cfg ss.workarea pos l (i - 1) n) := by
          rw [updateFirstById_eq_set l (i - 1) n _ hnd hsome]
          unfold Naughty.arrangeEntry
          rw [hidxeq, htn]
        rw [hupd]
        set e := Naughty.arrangeEntry cfg ss.workarea pos l (i - 1) n with he
        set l2 := l.set (i - 1) e with hl2
        have hlen2 : l2.length = l.length := by
          rw [hl2, List.length_set]
        have hheights : l2.map (fun m => m.height + cfg.spacing) =
            l.map (fun m => m.height + cfg.spacing) := by
          rw [hl2, List.map_set]
          exact set_of_getElem? _ _ _ (by rw [List.getElem?_map, hsome]; rfl)
        have hids : l2.map Naughty.Notif.id = l.map Naughty.Notif.id := by
          rw [hl2, List.map_set]
          exact set_of_getElem? _ _ _ (by rw [List.getElem?_map, hsome]; rfl)
        have hsame : ∀ k : Nat,
            Naughty.existingSum cfg l2 k = Naughty.existingSum cfg l k :=
          fun k => existingSum_congr cfg l2 l k hheights
        have hscr : screen - 1 < st.screens.length :=
          (List.getElem?_eq_some_iff.mp hss).1
        have hss2 : ({ st with screens := (st.screens.set (screen - 1)
            (Naughty.setListAt ss pos l2)) } : Naughty.St).screens[screen - 1]? =
            some (Naughty.setListAt ss pos l2) :=
          List.getElem?_set_self hscr
        have hlistAt2 : Naughty.listAt (Naughty.setListAt ss pos l2) pos = l2 := by
          rw [listAt_setListAt]
          simp
        have hwa2 : (Naughty.setListAt ss pos l2).workarea = ss.workarea :=
          workarea_setListAt ss pos l2
        have hih := ih (i + 1)
          { st with screens := (st.screens.set (screen - 1)
            (Naughty.setListAt ss pos l2)) }
          (Naughty.setListAt ss pos l2) hss2 (by omega)
          (by rw [hlistAt2, hlen2]; omega)
          (by rw [hlistAt2, hlen2]; omega)
          (by
            unfold Naughty.idsNodup
            rw [hlistAt2, hids]
            exact hnd)
          (by
            intro k m hm hk2
            rw [hlistAt2] at hm
            rw [hlistAt2, hwa2]
            have hne : i - 1 ≠ k := by omega
            have hml : l[k]? = some m := by
              rw [hl2] at hm
              rw [← List.getElem?_set_ne (l := l) (a := e) hne]
              exact hm
            rw [noEvictAt_congr cfg ss.workarea pos l2 l k _ (hsame k)]
            exact hfits k m hml (by omega))
        rw [hih]
        simp only [List.set_set, setListAt_setListAt, hwa2, hlistAt2]
        have harr : Naughty.arrangedFrom cfg ss.workarea pos l2 (i + 1 - 1) =
            Naughty.arrangedFrom cfg ss.workarea pos l (i - 1) := by
          have h1 : i + 1 - 1 = (i - 1) + 1 := by omega
          rw [h1, hl2, he]
          exact arrangedFrom_set_entry cfg ss.workarea pos l (i - 1) n hsome
        rw [harr]

theorem listFits_arrangedFrom (cfg : Naughty.Config) (ws : Naughty.Rect)
    (pos : Naughty.Position) (l : List Naughty.Notif)
    (hf : Naughty.listFits cfg ws pos l) :
    Naughty.listFits cfg ws pos (Naughty.arrangedFrom cfg ws pos l 0) := by
  intro k m hm
  rw [arrangedFrom_getElem?] at hm
  cases hl : l[k]? with
  | none =>
    rw [hl] at hm
    exact Option.noConfusion hm
  | some n =>
    rw [hl] at hm
    simp only [Option.map_some', Nat.zero_le, if_pos, Option.some.injEq] at hm
    have hh : m.height = n.height := by
      rw [← hm]
      rfl
    rw [hh]
    have hsum : Naughty.existingSum cfg (Naughty.arrangedFrom cfg ws pos l 0) k =
        Naughty.existingSum cfg l k :=
      existingSum_congr cfg _ l k (heights_arrangedFrom cfg ws pos l 0)
    rw [noEvictAt_congr cfg ws pos _ l k _ hsum]
    exact hf k n hl

theorem length_arrangePosResult (cfg : Naughty.Config) :
    ∀ (ps : List Naughty.Position) (ss : Naughty.ScreenState)
      (q : Naughty.Position),
      (Naughty.listAt (Naughty.arrangePosResult cfg ss ps) q).length =
        (Naughty.listAt ss q).length := by
  intro ps
  induction ps with
  | nil => intro ss q; rfl
  | cons p ps ih =>
    intro ss q
    unfold Naughty.arrangePosResult
    rw [ih]
    rw [listAt_setListAt]
    split
    · rename_i hq
      subst hq
      rw [arrangedFrom_length]
    · rfl

theorem workarea_arrangePosResult (cfg : Naughty.Config) :
    ∀ (ps : List Naughty.Position) (ss : Naughty.ScreenState),
      (Naughty.arrangePosResult cfg ss ps).workarea = ss.workarea := by
  intro ps
  induction ps with
  | nil => intro ss; rfl
  | cons p ps ih =>
    intro ss
    unfold Naughty.arrangePosResult
    rw [ih, workarea_setListAt]

theorem listAt_arrangePosResult_not_mem (cfg : Naughty.Config) :
    ∀ (ps : List Naughty.Position) (ss : Naughty.ScreenState)
      (q : Naughty.Position), q ∉ ps →
      Naughty.listAt (Naughty.arrangePosResult cfg ss ps) q =
        Naughty.listAt ss q := by
  intro ps
  induction ps with
  | nil => intro ss q _; rfl
  | cons p ps ih =>
    intro ss q hq
    unfold Naughty.arrangePosResult
    rw [ih _ _ (by intro hc; exact hq (List.mem_cons_of_mem p hc))]
    rw [listAt_setListAt]
    rw [if_neg (by intro hc; exact hq (hc ▸ List.mem_cons_self p ps))]

theorem listAt_arrangePosResult_mem (cfg : Naughty.Config) :
    ∀ (ps : List Naughty.Position) (ss : Naughty.ScreenState)
      (q : Naughty.Position), q ∈ ps → ps.Nodup →
      Naughty.listAt (Naughty.arrangePosResult cfg ss ps) q =
        Naughty.arrangedFrom cfg ss.workarea q (Naughty.listAt ss q) 0 := by
  intro ps
  induction ps with
  | nil => intro ss q hq; exact absurd hq (List.not_mem_nil q)
  | cons p ps ih =>
    intro ss q hq hnd
    unfold Naughty.arrangePosResult
    rcases List.mem_cons.mp hq with hq | hq
    · subst hq
      rw [listAt_arrangePosResult_not_mem cfg ps _ q
        ((List.nodup_cons.mp hnd).1)]
      rw [listAt_setListAt]
      rw [if_pos rfl]
    · rw [ih _ q hq (List.nodup_cons.mp hnd).2]
      rw [workarea_setListAt, listAt_setListAt]
      rw [if_neg (by
        intro hc
        exact (List.nodup_cons.mp hnd).1 (hc ▸ hq))]

theorem mem_positionsOrder (q : Naughty.Position) : q ∈ Naughty.positionsOrder := by
  cases q <;> simp [Naughty.positionsOrder]

theorem nodup_positionsOrder : Naughty.positionsOrder.Nodup := by
  decide

/-- Every position list of the screen after an eviction-free full `arrange`
pass. -/
theorem listAt_arrangeScreen (cfg : Naughty.Config) (ss : Naughty.ScreenState)
    (q : Naughty.Position) :
    Naughty.listAt (Naughty.arrangePosResult cfg ss Naughty.positionsOrder) q =
      Naughty.arrangedFrom cfg ss.workarea q (Naughty.listAt ss q) 0 :=
  listAt_arrangePosResult_mem cfg Naughty.positionsOrder ss q
    (mem_positionsOrder q) nodup_positionsOrder

/-- The outer `arrange` position loop, when every list of the screen fits,
arranges each position list in turn without evicting anything. -/
theorem arrangePos_noEvict (cfg : Naughty.Config) (screen : Nat) :
    ∀ (ps : List Naughty.Position) (fuel : Nat) (st : Naughty.St)
      (ss : Naughty.ScreenState),
      st.screens[screen - 1]? = some ss →
      (∀ p, Naughty.idsNodup (Naughty.listAt ss p)) →
      (∀ p, Naughty.listFits cfg ss.workarea p (Naughty.listAt ss p)) →
      (∀ p, (Naughty.listAt ss p).length + ps.length + 2 ≤ fuel) →
      Naughty.arrangePos cfg fuel st screen ps =
        .ok { st with screens := (st.screens.set (screen - 1)
          (Naughty.arrangePosResult cfg ss ps)) } := by
  intro ps
  induction ps with
  | nil =>
    intro fuel st ss hss hnd hfits hfuel
    cases fuel with
    | zero => exact absurd (hfuel .top_left) (by omega)
    | succ fuel =>
      simp only [Naughty.arrangePos, Naughty.arrangePosResult]
      rw [set_of_getElem? _ _ _ hss]
  | cons p ps ih =>
    intro fuel st ss hss hnd hfits hfuel
    cases fuel with
    | zero => exact absurd (hfuel .top_left) (by omega)
    | succ fuel =>
      simp only [Naughty.arrangePos]
      have hloop := arrangeLoop_noEvict cfg screen p fuel 1 st ss hss
        (by omega) (by omega)
        (by have := hfuel p; simp at this; omega)
        (hnd p)
        (by
          intro k m hm _
          exact hfits p k m hm)
      simp only [hloop]
      set ss2 := Naughty.setListAt ss p
        (Naughty.arrangedFrom cfg ss.workarea p (Naughty.listAt ss p) (1 - 1))
        with hss2def
      have hscr : screen - 1 < st.screens.length :=
        (List.getElem?_eq_some_iff.mp hss).1
      have hss2 : ({ st with screens := (st.screens.set (screen - 1) ss2) } :
          Naughty.St).screens[screen - 1]? = some ss2 :=
        List.getElem?_set_self hscr
      have hwa2 : ss2.workarea = ss.workarea := workarea_setListAt _ _ _
      have hlen2 : ∀ q, (Naughty.listAt ss2 q).length =
          (Naughty.listAt ss q).length := by
        intro q
        rw [hss2def, listAt_setListAt]
        split
        · rename_i hq
          subst hq
          rw [arrangedFrom_length]
        · rfl
      have hih := ih fuel { st with screens := (st.screens.set (screen - 1) ss2) }
        ss2 hss2
        (by
          intro q
          rw [hss2def, listAt_setListAt]
          split
          · rename_i hq
            subst hq
            unfold Naughty.idsNodup
            rw [ids_arrangedFrom]
            exact hnd q
          · exact hnd q)
        (by
          intro q
          rw [hwa2]
          rw [hss2def, listAt_setListAt]
          split
          · rename_i hq
            subst hq
            exact listFits_arrangedFrom cfg ss.workarea q _ (hfits q)
          · exact hfits q)
        (by
          intro q
          have := hfuel q
          rw [hlen2 q]
          simp at this ⊢
          omega)
      rw [hih]
      simp only [List.set_set]
      rfl

/-- `arrange` under the fit conditions: every list of the screen is rewritten
to its arranged form and nothing else changes. -/
theorem arrange_noEvict (cfg : Naughty.Config) (screen : Nat) (fuel : Nat)
    (st : Naughty.St) (ss : Naughty.ScreenState)
    (hss : st.screens[screen - 1]? = some ss)
    (hnd : ∀ p, Naughty.idsNodup (Naughty.listAt ss p))
    (hfits : ∀ p, Naughty.listFits cfg ss.workarea p (Naughty.listAt ss p))
    (hfuel : ∀ p, (Naughty.listAt ss p).length + 9 ≤ fuel) :
    Naughty.arrange cfg fuel st screen =
      .ok { st with screens := (st.screens.set (screen - 1)
        (Naughty.arrangePosResult cfg ss Naughty.positionsOrder)) } := by
  cases fuel with
  | zero => exact absurd (hfuel .top_left) (by omega)
  | succ fuel =>
    simp only [Naughty.arrange, hss]
    exact arrangePos_noEvict cfg screen Naughty.positionsOrder fuel st ss hss
      hnd hfits (by
        intro p
        have := hfuel p
        simp [Naughty.positionsOrder]
        omega)

/-! ### Lemmas about erasure (the destroy step) -/

theorem getElem?_eraseIdx_lt {α : Type} :
    ∀ (l : List α) (i k : Nat), k < i → (l.eraseIdx i)[k]? = l[k]? := by
  intro l
  induction l with
  | nil => intro i k _; rfl
  | cons a t ih =>
    intro i k hk
    cases i with
    | zero => omega
    | succ i =>
      cases k with
      | zero => simp [List.eraseIdx_cons_succ]
      | succ k =>
        simp only [List.eraseIdx_cons_succ, List.getElem?_cons_succ]
        exact ih i k (by omega)

theorem getElem?_eraseIdx_ge {α : Type} :
    ∀ (l : List α) (i k : Nat), i ≤ k → (l.eraseIdx i)[k]? = l[k + 1]? := by
  intro l
  induction l with
  | nil => intro i k _; simp [List.eraseIdx_nil]
  | cons a t ih =>
    intro i k hk
    cases i with
    | zero =>
      simp only [List.eraseIdx_cons_zero, List.getElem?_cons_succ]
    | succ i =>
      cases k with
      | zero => omega
      | succ k =>
        simp only [List.eraseIdx_cons_succ, List.getElem?_cons_succ]
        exact ih i k (by omega)

theorem existingSum_zero (cfg : Naughty.Config) (l : List Naughty.Notif) :
    Naughty.existingSum cfg l 0 = 0 := by
  cases l <;> rfl

theorem existingSum_eraseIdx_lt (cfg : Naughty.Config) :
    ∀ (l : List Naughty.Notif) (i k : Nat), k ≤ i →
      Naughty.existingSum cfg (l.eraseIdx i) k = Naughty.existingSum cfg l k := by
  intro l
  induction l with
  | nil => intro i k _; rw [List.eraseIdx_nil]
  | cons a t ih =>
    intro i k hk
    cases i with
    | zero =>
      have hk0 : k = 0 := by omega
      subst hk0
      rw [existingSum_zero, existingSum_zero]
    | succ i =>
      cases k with
      | zero => rfl
      | succ k =>
        simp only [List.eraseIdx_cons_succ]
        unfold Naughty.existingSum
        rw [ih i k (by omega)]

theorem existingSum_eraseIdx_ge (cfg : Naughty.Config) :
    ∀ (l : List Naughty.Notif) (i k : Nat) (m : Naughty.Notif), i ≤ k →
      l[i]? = some m →
      Naughty.existingSum cfg (l.eraseIdx i) k =
        Naughty.existingSum cfg l (k + 1) - (m.height + cfg.spacing) := by
  intro l
  induction l with
  | nil => intro i k m _ hm; exact absurd hm (by simp)
  | cons a t ih =>
    intro i k m hik hm
    cases i with
    | zero =>
      simp only [List.getElem?_cons_zero, Option.some.injEq] at hm
      subst hm
      simp only [List.eraseIdx_cons_zero]
      have hstep : Naughty.existingSum cfg (a :: t) (k + 1) =
          a.height + cfg.spacing + Naughty.existingSum cfg t k := rfl
      rw [hstep]
      ring
    | succ i =>
      cases k with
      | zero => omega
      | succ k =>
        simp only [List.getElem?_cons_succ] at hm
        simp only [List.eraseIdx_cons_succ]
        show a.height + cfg.spacing + Naughty.existingSum cfg (t.eraseIdx i) k = _
        rw [ih i k m (by omega) hm]
        show _ = a.height + cfg.spacing + Naughty.existingSum cfg t (k + 1) -
          (m.height + cfg.spacing)
        ring

theorem existingSum_nonneg (cfg : Naughty.Config) (hs : 0 ≤ cfg.spacing) :
    ∀ (l : List Naughty.Notif) (k : Nat), Naughty.heightsOK l →
      0 ≤ Naughty.existingSum cfg l k := by
  intro l
  induction l with
  | nil => intro k _; rw [existingSum_nil]
  | cons a t ih =>
    intro k hh
    cases k with
    | zero => exact le_refl 0
    | succ k =>
      show 0 ≤ a.height + cfg.spacing + Naughty.existingSum cfg t k
      have h1 : 0 ≤ a.height := hh a (List.mem_cons_self a t)
      have h2 : 0 ≤ Naughty.existingSum cfg t k :=
        ih k (fun m hm => hh m (List.mem_cons_of_mem a hm))
      omega

theorem heightsOK_eraseIdx (l : List Naughty.Notif) (i : Nat)
    (hh : Naughty.heightsOK l) : Naughty.heightsOK (l.eraseIdx i) :=
  fun m hm => hh m (List.mem_of_mem_eraseIdx hm)

theorem idsNodup_eraseIdx (l : List Naughty.Notif) (i : Nat)
    (hnd : Naughty.idsNodup l) : Naughty.idsNodup (l.eraseIdx i) := by
  unfold Naughty.idsNodup at hnd ⊢
  have hsub : List.Sublist ((l.eraseIdx i).map Naughty.Notif.id)
      (l.map Naughty.Notif.id) :=
    List.Sublist.map Naughty.Notif.id (List.eraseIdx_sublist l i)
  exact List.Nodup.sublist hsub hnd

/-- Removing an element from a fitting list keeps the list fitting, provided
padding, spacing and the stored heights are nonnegative. -/
theorem listFits_eraseIdx (cfg : Naughty.Config) (ws : Naughty.Rect)
    (pos : Naughty.Position) (l : List Naughty.Notif) (i : Nat)
    (hpad : 0 ≤ cfg.padding) (hs : 0 ≤ cfg.spacing)
    (hh : Naughty.heightsOK l) (hf : Naughty.listFits cfg ws pos l) :
    Naughty.listFits cfg ws pos (l.eraseIdx i) := by
  intro k m hm
  by_cases hki : k < i
  · rw [getElem?_eraseIdx_lt l i k hki] at hm
    have hfit := hf k m hm
    unfold Naughty.noEvictAt at hfit ⊢
    rw [existingSum_eraseIdx_lt cfg l i k (by omega)]
    exact hfit
  · push_neg at hki
    rw [getElem?_eraseIdx_ge l i k hki] at hm
    have hfit := hf (k + 1) m hm
    have hi : i < l.length := by
      have hlen := (List.getElem?_eq_some_iff.mp hm).1
      omega
    have hmi : l[i]? = some (l.get ⟨i, hi⟩) := List.getElem?_eq_getElem hi
    set mi := l.get ⟨i, hi⟩ with hmidef
    have hde := existingSum_eraseIdx_ge cfg l i k mi hki hmi
    have hminn : 0 ≤ mi.height := hh mi (by
      rw [hmidef]
      simp only [List.get_eq_getElem]
      exact List.getElem_mem hi)
    have hnn : 0 ≤ Naughty.existingSum cfg (l.eraseIdx i) k :=
      existingSum_nonneg cfg hs (l.eraseIdx i) k (heightsOK_eraseIdx l i hh)
    unfold Naughty.noEvictAt at hfit ⊢
    unfold Naughty.yFor at hfit ⊢
    split
    · constructor
      · have : Naughty.existingSum cfg (l.eraseIdx i) k ≤
            Naughty.existingSum cfg l (k + 1) := by omega
        omega
      · omega
    · constructor
      · omega
      · have : Naughty.existingSum cfg (l.eraseIdx i) k ≤
            Naughty.existingSum cfg l (k + 1) := by omega
        omega

/-- `naughty.destroy` on a visible notification stored at its recorded index,
when every list of its screen still fits after the removal: the entry is
removed, the screen re-arranged without further evictions, the suspended list
filtered when suspension is active, and the destroy callback logged unless the
reason is `silent`. -/
theorem destroy_noEvict (cfg : Naughty.Config) (fuel : Nat) (st : Naughty.St)
    (n : Naughty.Notif) (reason : Option Int) (ss : Naughty.ScreenState)
    (i : Nat)
    (hss : st.screens[n.screen - 1]? = some ss)
    (hv : n.visible = true)
    (hidx : n.idx = (i : Int) + 1)
    (hmem : (Naughty.listAt ss n.position)[i]? = some n)
    (hnd : ∀ p, Naughty.idsNodup
      (Naughty.listAt (Naughty.erasedScreen ss n.position i) p))
    (hfits : ∀ p, Naughty.listFits cfg ss.workarea p
      (Naughty.listAt (Naughty.erasedScreen ss n.position i) p))
    (hfuel : ∀ p, (Naughty.listAt ss p).length + 10 ≤ fuel) :
    Naughty.destroy cfg fuel st (some n) reason =
      .ok ({ st with
        screens := (st.screens.set (n.screen - 1)
          (Naughty.arrangePosResult cfg (Naughty.erasedScreen ss n.position i)
            Naughty.positionsOrder)),
        suspendedL := (if st.suspendedFlag then
          Naughty.removeFirstById n.id st.suspendedL else st.suspendedL),
        cbLog := (if n.hasDestroyCb ∧ reason ≠ some Naughty.silent then
          st.cbLog ++ [(n.id, reason.getD Naughty.undefined)] else st.cbLog) },
        true) := by
  cases fuel with
  | zero => exact absurd (hfuel .top_left) (by omega)
  | succ fuel =>
    have hlen : i < (Naughty.listAt ss n.position).length :=
      (List.getElem?_eq_some_iff.mp hmem).1
    have hscr : n.screen - 1 < st.screens.length :=
      (List.getElem?_eq_some_iff.mp hss).1
    have htr : Naughty.luaTableRemove (Naughty.listAt ss n.position) n.idx =
        (Naughty.listAt ss n.position).eraseIdx i := by
      unfold Naughty.luaTableRemove
      rw [hidx]
      rw [if_pos (by omega)]
      congr 1
      omega
    have hwaE : (Naughty.erasedScreen ss n.position i).workarea = ss.workarea :=
      workarea_setListAt _ _ _
    have hlenE : ∀ p, (Naughty.listAt (Naughty.erasedScreen ss n.position i) p).length ≤
        (Naughty.listAt ss p).length := by
      intro p
      unfold Naughty.erasedScreen
      rw [listAt_setListAt]
      split
      · rename_i hq
        subst hq
        rw [List.length_eraseIdx]
        split <;> omega
      · exact le_refl _
    unfold Naughty.destroy
    simp only [hv, if_true]
    cases hsf : st.suspendedFlag
    · have harr := arrange_noEvict cfg n.screen fuel
        ({ st with
            screens := (st.screens.set (n.screen - 1)
              (Naughty.erasedScreen ss n.position i)) } : Naughty.St)
        (Naughty.erasedScreen ss n.position i)
        (List.getElem?_set_self hscr) hnd
        (by intro p; rw [hwaE]; exact hfits p)
        (by intro p; have h1 := hlenE p; have h2 := hfuel p; omega)
      simp only [Naughty.erasedScreen] at harr
      simp only [hsf, Bool.false_eq_true, if_false, hss, htr, hsf] at harr ⊢
      rw [harr]
      simp only [List.set_set]
      by_cases hcb : n.hasDestroyCb = true ∧ reason ≠ some Naughty.silent
      · rw [if_pos hcb, if_pos hcb]
        rfl
      · rw [if_neg hcb, if_neg hcb]
        rfl
    · have harr := arrange_noEvict cfg n.screen fuel
        ({ st with
            suspendedL := Naughty.removeFirstById n.id st.suspendedL,
            screens := (st.screens.set (n.screen - 1)
              (Naughty.erasedScreen ss n.position i)) } : Naughty.St)
        (Naughty.erasedScreen ss n.position i)
        (List.getElem?_set_self hscr) hnd
        (by intro p; rw [hwaE]; exact hfits p)
        (by intro p; have h1 := hlenE p; have h2 := hfuel p; omega)
      simp only [Naughty.erasedScreen] at harr
      simp only [hsf, if_true, hss, htr] at harr ⊢
      rw [harr]
      simp only [List.set_set]
      by_cases hcb : n.hasDestroyCb = true ∧ reason ≠ some Naughty.silent
      · rw [if_pos hcb, if_pos hcb]
        rfl
      · rw [if_neg hcb, if_neg hcb]
        rfl

/-! ## Claim C1: the stacking layout geometry -/

/-- Claim C1: for every non-empty ordered list of `N` clients and work area
`wa`, the stacking layout `arrange` assigns client `k` (0-based) the geometry
`width = wa.width`, `height = ceil(wa.height / N)`, `x = wa.x`,
`y = wa.y + k * ceil(wa.height / N)`; for `N = 0` it assigns no geometries. -/
theorem c1_xterm_stacking_geometry (wa : Xterm.LuaRect) (cls : List Nat) :
    (cls = [] → Xterm.arrange wa cls = []) ∧
    (∀ (k : Nat) (c : Nat), cls[k]? = some c →
      (Xterm.arrange wa cls)[k]? = some (c,
        ({ x := wa.x,
           y := wa.y + (k : Int) * Xterm.luaCeilDiv wa.height cls.length,
           width := wa.width,
           height := Xterm.luaCeilDiv wa.height cls.length } : Xterm.LuaRect))) := by
  constructor
  · rintro rfl
    rfl
  · intro k c hk
    have hlen : k < cls.length := by
      by_contra hcon
      rw [List.getElem?_eq_none (by omega)] at hk
      exact Option.noConfusion hk
    unfold Xterm.arrange Xterm.do_xterm
    rw [if_pos (by omega)]
    simp only [List.getElem?_map, List.getElem?_enum, hk, Option.map_some]
    refine congrArg some (Prod.ext rfl ?_)
    congr 1 <;> ring

/-- Witness for C1 at a concrete input. -/
theorem c1_xterm_stacking_geometry_witness :
    (Xterm.arrange { x := 2, y := 3, width := 50, height := 100 } [5, 6, 7])[1]? =
      some (6, { x := 2, y := 3 + (1 : Int) * Xterm.luaCeilDiv 100 3,
                 width := 50, height := Xterm.luaCeilDiv 100 3 }) :=
  (c1_xterm_stacking_geometry { x := 2, y := 3, width := 50, height := 100 }
    [5, 6, 7]).2 1 6 rfl

/-! ## Claim C8: the XKB event dispatch -/

/-- Claim C8: the bridge handler emits `xkb::map_changed` (no payload) exactly
when the event sub-type is new-keyboard-notify with the keycodes bit set in
its changed mask, or names-notify; emits `xkb::group_changed` with the event
group as single payload exactly when the sub-type is state-notify with the
group bit set; and emits nothing otherwise. -/
theorem c8_xkb_event_dispatch (e : Xkb.XkbEvent) :
    (Xkb.event_handle_xkb_notify e = [.map_changed] ↔
      ((e.pad0 = Xkb.XCB_XKB_NEW_KEYBOARD_NOTIFY ∧
        e.changed &&& Xkb.XCB_XKB_NKN_DETAIL_KEYCODES ≠ 0) ∨
       e.pad0 = Xkb.XCB_XKB_NAMES_NOTIFY)) ∧
    (∀ g, Xkb.event_handle_xkb_notify e = [.group_changed g] ↔
      (e.pad0 = Xkb.XCB_XKB_STATE_NOTIFY ∧
       e.changed &&& Xkb.XCB_XKB_STATE_PART_GROUP_STATE ≠ 0 ∧ g = e.group)) ∧
    (¬((e.pad0 = Xkb.XCB_XKB_NEW_KEYBOARD_NOTIFY ∧
        e.changed &&& Xkb.XCB_XKB_NKN_DETAIL_KEYCODES ≠ 0) ∨
       e.pad0 = Xkb.XCB_XKB_NAMES_NOTIFY ∨
       (e.pad0 = Xkb.XCB_XKB_STATE_NOTIFY ∧
        e.changed &&& Xkb.XCB_XKB_STATE_PART_GROUP_STATE ≠ 0)) →
      Xkb.event_handle_xkb_notify e = []) := by
  unfold Xkb.event_handle_xkb_notify
  unfold Xkb.XCB_XKB_NEW_KEYBOARD_NOTIFY Xkb.XCB_XKB_NAMES_NOTIFY
    Xkb.XCB_XKB_STATE_NOTIFY Xkb.XCB_XKB_NKN_DETAIL_KEYCODES
    Xkb.XCB_XKB_STATE_PART_GROUP_STATE
  split_ifs with h1 h2 h3 h4 h5 <;> simp_all <;> omega

/-- Witness for C8 at a concrete input: a state-notify event with the group
bit set emits exactly one group-changed signal. -/
theorem c8_xkb_event_dispatch_witness :
    Xkb.event_handle_xkb_notify { pad0 := 2, changed := 16, group := 3 } =
      [.group_changed 3] :=
  ((c8_xkb_event_dispatch { pad0 := 2, changed := 16, group := 3 }).2.1 3).2
    (by refine ⟨rfl, by decide, rfl⟩)

/-! ## Claim C9: XKB query failure behaviour -/

/-- Claim C9: when the X query fails, `get_layout` pushes zero values without
raising and `get_group_names` pushes zero values after logging a warning for
the failed names or atom lookup; on success `get_layout` pushes the group and
`get_group_names` pushes the resolved atom text. -/
theorem c9_xkb_query_failures :
    (Xkb.luaA_xkb_get_layout_group none = []) ∧
    (∀ r, Xkb.luaA_xkb_get_layout_group (some r) = [.num r.group]) ∧
    (∀ f, Xkb.luaA_xkb_get_group_names none f =
      ([], ["Failed to get xkb symbols name"])) ∧
    (∀ nr f, f nr.symbolsName = none →
      Xkb.luaA_xkb_get_group_names (some nr) f =
        ([], ["Failed to get atom symbols name"])) ∧
    (∀ nr f s, f nr.symbolsName = some s →
      Xkb.luaA_xkb_get_group_names (some nr) f = ([.str s], [])) := by
  refine ⟨rfl, fun r => rfl, fun f => rfl, ?_, ?_⟩ <;>
    · intros
      simp only [Xkb.luaA_xkb_get_group_names]
      simp [*]

/-- Witness for C9 at a concrete input: a failed atom lookup yields no value
and the atom warning. -/
theorem c9_xkb_query_failures_witness :
    Xkb.luaA_xkb_get_group_names (some { symbolsName := 7 }) (fun _ => none) =
      ([], ["Failed to get atom symbols name"]) :=
  c9_xkb_query_failures.2.2.2.1 { symbolsName := 7 } (fun _ => none) rfl

/-! ## Claim C6: the notify size crop -/

/-- Claim C6: in `naughty.notify`, whenever the computed width (resp. height)
exceeds the work-area width (resp. height) minus twice the border width and
twice the padding, it is set exactly to
`work_area_dim - 2*border_width - 2*padding`. -/
theorem c6_notify_size_crop (padding border_width : Int) (wa : Naughty.Rect)
    (w h : Int) :
    (w > wa.width - 2 * border_width - 2 * padding →
      (Naughty.crop_to_workarea padding border_width wa w h).1 =
        wa.width - 2 * border_width - 2 * padding) ∧
    (h > wa.height - 2 * border_width - 2 * padding →
      (Naughty.crop_to_workarea padding border_width wa w h).2 =
        wa.height - 2 * border_width - 2 * padding) := by
  unfold Naughty.crop_to_workarea
  constructor <;> intro hgt <;> simp [hgt]

/-- Witness for C6 at a concrete input. -/
theorem c6_notify_size_crop_witness :
    (Naughty.crop_to_workarea 4 1 { x := 0, y := 0, width := 200, height := 100 }
      500 400).1 = 200 - 2 * 1 - 2 * 4 :=
  (c6_notify_size_crop 4 1 { x := 0, y := 0, width := 200, height := 100 }
    500 400).1 (by decide)

/-! ## Claim C7: `reset_timeout` ignores its `new_timeout` argument -/

/-- Counterexample to C7 as stated: for a notification whose stored timeout is
0, `reset_timeout` does not install and start any timer — the final
`notification.timer:start()` indexes nil and raises (modelled as `none`), for
every value of `new_timeout` (here 7). -/
theorem c7_counterexample :
    Naughty.reset_timeout false c7notif 7 = none ∧
    ¬∃ r, Naughty.reset_timeout false c7notif 7 = some r := by
  have h : Naughty.reset_timeout false c7notif 7 = none := by decide
  exact ⟨h, by simp [h]⟩

/-- Claim C7 (amended: for notifications whose stored `timeout` field is
positive): `reset_timeout` installs and starts a timer whose duration equals
the notification's previously stored `timeout` field, and the `new_timeout`
argument has no effect on the result, because the local named `timeout` is
taken from an undefined (nil) global rather than from `new_timeout`. -/
theorem c7_reset_timeout_uses_stored_timeout (suspended : Bool)
    (n : Naughty.Notif) (new_timeout : Int) (ht : 0 < n.timeout) :
    Naughty.reset_timeout suspended n new_timeout =
      some { n with timer := some { timeout := n.timeout, started := true } } ∧
    (∀ other : Int, Naughty.reset_timeout suspended n other =
      Naughty.reset_timeout suspended n new_timeout) := by
  constructor
  · cases htm : n.timer <;>
      simp [Naughty.reset_timeout, htm, Naughty.set_timeout, ht,
        Naughty.timerStop, Naughty.timerStart]
  · intro other
    rfl

/-- Witness for C7 (amended) at a concrete input. -/
theorem c7_reset_timeout_uses_stored_timeout_witness :
    Naughty.reset_timeout false c7notif5 99 =
      some { c7notif5 with timer := some { timeout := 5, started := true } } :=
  (c7_reset_timeout_uses_stored_timeout false c7notif5 99 (by decide)).1

/-! ## Claim C10: destroying an invisible notification is a no-op -/

/-- Claim C10: for every notification whose popup widget is not visible,
`naughty.destroy` returns nil (modelled `false`) and leaves the whole module
state — every per-screen per-position list, the suspended list, and the
destroy-callback log — unchanged; and whenever `destroy` completes on such a
notification, the state is unchanged, so only a notification with a visible
widget is ever removed. -/
theorem c10_destroy_invisible_noop (cfg : Naughty.Config) (st : Naughty.St)
    (n : Naughty.Notif) (reason : Option Int) (hv : n.visible = false) :
    (∀ fuel : Nat,
      Naughty.destroy cfg (fuel + 1) st (some n) reason = .ok (st, false)) ∧
    (∀ (fuel : Nat) (st2 : Naughty.St) (b : Bool),
      Naughty.destroy cfg fuel st (some n) reason = .ok (st2, b) →
        st2 = st ∧ b = false) := by
  have hbase : ∀ fuel : Nat,
      Naughty.destroy cfg (fuel + 1) st (some n) reason = .ok (st, false) := by
    intro fuel
    simp [Naughty.destroy, hv]
  refine ⟨hbase, ?_⟩
  intro fuel st2 b h
  cases fuel with
  | zero => exact absurd h (by simp [Naughty.destroy])
  | succ fuel =>
    rw [hbase fuel] at h
    have h2 := h
    simp only [Naughty.Res.ok.injEq, Prod.mk.injEq] at h2
    exact ⟨h2.1.symm, h2.2.symm⟩

/-- An invisible notification is never destroyed (`core.lua.in:237`): helper
form of the no-op fact at positive fuel. -/
theorem destroy_not_visible (cfg : Naughty.Config) (fuel : Nat)
    (st : Naughty.St) (n : Naughty.Notif) (reason : Option Int)
    (hv : n.visible = false) :
    Naughty.destroy cfg (fuel + 1) st (some n) reason = .ok (st, false) := by
  simp [Naughty.destroy, hv]

/-- Heights are preserved entrywise by the eviction-free `arrange` rewrite. -/
theorem heightsOK_arrangedFrom (cfg : Naughty.Config) (ws : Naughty.Rect)
    (pos : Naughty.Position) (l : List Naughty.Notif) (j : Nat)
    (hl : Naughty.heightsOK l) :
    Naughty.heightsOK (Naughty.arrangedFrom cfg ws pos l j) := by
  intro n hn
  have h1 : n.height ∈ (Naughty.arrangedFrom cfg ws pos l j).map Naughty.Notif.height :=
    List.mem_map_of_mem _ hn
  rw [map_arrangedFrom cfg ws pos l j Naughty.Notif.height (fun _ _ _ => rfl)] at h1
  obtain ⟨m, hm, he⟩ := List.mem_map.mp h1
  rw [← he]
  exact hl m hm

/-- Ids are preserved by the eviction-free `arrange` rewrite, so distinctness
is too. -/
theorem idsNodup_arrangedFrom (cfg : Naughty.Config) (ws : Naughty.Rect)
    (pos : Naughty.Position) (l : List Naughty.Notif) (j : Nat)
    (hl : Naughty.idsNodup l) :
    Naughty.idsNodup (Naughty.arrangedFrom cfg ws pos l j) := by
  unfold Naughty.idsNodup
  rw [ids_arrangedFrom]
  exact hl

/-- The eviction step of `get_offset` (`core.lua.in:207-212`): when the
vertical-extent check fails, the result is that of destroying the oldest
popup of the list and recursing at `idx - 1`. -/
theorem get_offset_evict_step (cfg : Naughty.Config) (fuel : Nat)
    (st : Naughty.St) (screen : Nat) (pos : Naughty.Position) (idx : Int)
    (w h : Int) (ss : Naughty.ScreenState)
    (hss : st.screens[screen - 1]? = some ss)
    (h2 : ¬ (idx - 1 > ((Naughty.listAt ss pos).length : Int)))
    (hev : Naughty.yFor cfg ss.workarea pos
        (Naughty.existingSum cfg (Naughty.listAt ss pos) (idx - 1).toNat) h + h >
        ss.workarea.y + ss.workarea.height ∨
      Naughty.yFor cfg ss.workarea pos
        (Naughty.existingSum cfg (Naughty.listAt ss pos) (idx - 1).toNat) h <
        ss.workarea.y) :
    Naughty.get_offset cfg (fuel + 1) st screen pos (some idx) (some w) h =
      match Naughty.destroy cfg fuel st (Naughty.listAt ss pos)[0]? none with
      | .fuelOut => .fuelOut
      | .luaError => .luaError
      | .ok stb =>
        Naughty.get_offset cfg fuel stb.1 screen pos (some (idx - 1)) (some w) h := by
  simp only [Naughty.get_offset, hss, Option.getD_some]
  rw [if_neg h2, if_pos hev]

/-! ## Claim C3: termination of the eviction recursion in `get_offset` -/

/-- On `emptySt` with a popup of height 200 (taller than the 100-high work
area), `get_offset` at any index at most 1 never produces a result, for any
amount of fuel: the vertical-extent check fails even for the empty list, the
eviction `naughty.destroy(...[1])` is a no-op on the empty list, and the
recursion decrements `idx` forever. -/
theorem get_offset_empty_oversized (fuel : Nat) :
    ∀ idx : Int, idx ≤ 1 →
      Naughty.get_offset stdCfg fuel emptySt 1 .top_right (some idx) (some 50) 200 =
        .fuelOut := by
  induction fuel with
  | zero => intro idx _; rfl
  | succ fuel ih =>
    intro idx hidx
    simp only [Naughty.get_offset]
    norm_num [emptySt, emptySS, Naughty.listAt, existingSum_nil,
      Naughty.yFor, Naughty.posMatchTop, stdCfg]
    rw [if_neg (by omega : ¬ (1 : Int) < idx)]
    cases fuel with
    | zero => rfl
    | succ fuel2 =>
      have hdes : ∀ (c : Naughty.Config) (s : Naughty.St),
          Naughty.destroy c (fuel2 + 1) s none none = .ok (s, false) :=
        fun c s => rfl
      rw [hdes]
      exact ih (idx - 1) (by omega)

/-- Counterexample to C3 as stated: for the concrete screen, position
`top_right`, index 1, width 50 and height 200, the recursive eviction in
`get_offset` does not terminate — there is no fuel for which it returns a
result (the call `Naughty.get_offset stdCfg fuel emptySt 1 .top_right (some 1)
(some 50) 200` is `fuelOut` for every `fuel`, i.e. the Lua recursion descends
forever). -/
theorem c3_counterexample :
    ¬∃ (fuel : Nat) (r : Naughty.St × Naughty.Offset),
      Naughty.get_offset stdCfg fuel emptySt 1 .top_right (some 1) (some 50) 200 =
        .ok r := by
  rintro ⟨fuel, r, h⟩
  rw [get_offset_empty_oversized fuel 1 (by norm_num)] at h
  exact Naughty.Res.noConfusion h

/-- Claim C3 (amended): the eviction recursion terminates when the queried
popup alone fits the work area and the stored lists are well formed. -/
theorem c3_eviction_terminates (cfg : Naughty.Config) (screen : Nat)
    (pos : Naughty.Position) (w h : Int)
    (hpad : 0 ≤ cfg.padding) (hsp : 0 ≤ cfg.spacing) :
    ∀ (idx fuel : Nat) (st : Naughty.St) (ss : Naughty.ScreenState),
      st.screens[screen - 1]? = some ss →
      (∀ p, Naughty.heightsOK (Naughty.listAt ss p)) →
      (∀ p, Naughty.idsNodup (Naughty.listAt ss p)) →
      (∀ p, Naughty.listFits cfg ss.workarea p (Naughty.listAt ss p)) →
      Naughty.homeOK screen ss →
      Naughty.idxOK ss →
      Naughty.fitsAlone cfg ss.workarea pos h →
      1 ≤ idx → idx ≤ (Naughty.listAt ss pos).length + 1 →
      (∀ p, (Naughty.listAt ss p).length + idx + 12 ≤ fuel) →
      ∃ (st2 : Naughty.St) (off : Naughty.Offset),
        Naughty.get_offset cfg fuel st screen pos (some (idx : Int)) (some w) h =
          .ok (st2, off) := by
  intro idx
  induction idx with
  | zero =>
    intro fuel st ss _ _ _ _ _ _ _ h1 _ _
    omega
  | succ idx ih =>
    intro fuel st ss hss hh hnd hfits hhome hidxok hfa h1 h2 hfuel
    cases fuel with
    | zero => exact absurd (hfuel .top_left) (by omega)
    | succ f =>
    by_cases hev : Naughty.noEvictAt cfg ss.workarea pos (Naughty.listAt ss pos)
        ((((idx + 1 : Nat) : Int)) - 1).toNat h
    · exact ⟨st, _, get_offset_noEvict cfg f st screen pos ((idx + 1 : Nat) : Int)
        w h ss hss (by omega) (by omega) hev⟩
    · -- eviction: the extent check fails
      rcases Nat.eq_zero_or_pos idx with hz | hpos
      · -- impossible at index 1: the popup alone fits
        subst hz
        have hk : ((((0 + 1 : Nat) : Int)) - 1).toNat = 0 := by omega
        rw [hk] at hev
        have htr : Naughty.noEvictAt cfg ss.workarea pos
            (Naughty.listAt ss pos) 0 h :=
          (noEvictAt_congr cfg ss.workarea pos (Naughty.listAt ss pos) [] 0 h
            (by rw [existingSum_zero, existingSum_zero])).mpr hfa
        exact absurd htr hev
      · have hlen1 : 1 ≤ (Naughty.listAt ss pos).length := by omega
        have hhd0 : (Naughty.listAt ss pos)[0]? =
            some ((Naughty.listAt ss pos).get ⟨0, by omega⟩) :=
          List.getElem?_eq_getElem (by omega)
        set hd := (Naughty.listAt ss pos).get ⟨0, by omega⟩ with hhddef
        have hevRaw : Naughty.yFor cfg ss.workarea pos
            (Naughty.existingSum cfg (Naughty.listAt ss pos)
              ((((idx + 1 : Nat) : Int)) - 1).toNat) h + h >
            ss.workarea.y + ss.workarea.height ∨
          Naughty.yFor cfg ss.workarea pos
            (Naughty.existingSum cfg (Naughty.listAt ss pos)
              ((((idx + 1 : Nat) : Int)) - 1).toNat) h <
            ss.workarea.y := by
          unfold Naughty.noEvictAt at hev
          omega
        have hstep := get_offset_evict_step cfg f st screen pos
          ((idx + 1 : Nat) : Int) w h ss hss (by push_cast; omega) hevRaw
        rw [hstep]
        have hcast : (((idx + 1 : Nat) : Int)) - 1 = ((idx : Nat) : Int) := by
          push_cast
          ring
        cases f with
        | zero => exact absurd (hfuel .top_left) (by omega)
        | succ f2 =>
        cases hv : hd.visible with
        | false =>
          have hDi := destroy_not_visible cfg f2 st hd none hv
          rw [hhd0]
          simp only [hDi]
          rw [hcast]
          exact ih (f2 + 1) st ss hss hh hnd hfits hhome hidxok hfa
            (by omega) (by omega) (by intro p; have := hfuel p; omega)
        | true =>
          have hmem0 : hd ∈ Naughty.listAt ss pos := List.getElem?_mem hhd0
          obtain ⟨hscr_eq, hpos_eq⟩ := hhome pos hd hmem0
          have hndE : ∀ p, Naughty.idsNodup
              (Naughty.listAt (Naughty.erasedScreen ss hd.position 0) p) := by
            intro p
            unfold Naughty.erasedScreen
            rw [listAt_setListAt]
            split
            · exact idsNodup_eraseIdx _ 0 (hnd hd.position)
            · exact hnd p
          have hfitsE : ∀ p, Naughty.listFits cfg ss.workarea p
              (Naughty.listAt (Naughty.erasedScreen ss hd.position 0) p) := by
            intro p
            unfold Naughty.erasedScreen
            rw [listAt_setListAt]
            split
            · rename_i hq
              subst hq
              exact listFits_eraseIdx cfg ss.workarea hd.position _ 0 hpad hsp
                (hh hd.position) (hfits hd.position)
            · exact hfits p
          have hD := destroy_noEvict cfg (f2 + 1) st hd none ss 0
            (by rw [hscr_eq]; exact hss) hv (hidxok pos 0 hd hhd0)
            (by rw [hpos_eq]; exact hhd0) hndE hfitsE
            (fun p => by have := hfuel p; omega)
          rw [hscr_eq, hpos_eq] at hD
          rw [hhd0]
          simp only [hD]
          rw [hcast]
          -- invariants for the rearranged erased screen
          have hwa2 : (Naughty.arrangePosResult cfg
              (Naughty.erasedScreen ss pos 0)
              Naughty.positionsOrder).workarea = ss.workarea := by
            rw [workarea_arrangePosResult]
            exact workarea_setListAt ss pos _
          have hlistE : ∀ q, Naughty.listAt (Naughty.erasedScreen ss pos 0) q =
              (if q = pos then (Naughty.listAt ss pos).eraseIdx 0
               else Naughty.listAt ss q) := by
            intro q
            unfold Naughty.erasedScreen
            rw [listAt_setListAt]
          have hlist2 : ∀ q, Naughty.listAt (Naughty.arrangePosResult cfg
              (Naughty.erasedScreen ss pos 0) Naughty.positionsOrder) q =
              Naughty.arrangedFrom cfg ss.workarea q
                (Naughty.listAt (Naughty.erasedScreen ss pos 0) q) 0 := by
            intro q
            rw [listAt_arrangeScreen,
              show (Naughty.erasedScreen ss pos 0).workarea = ss.workarea from
                workarea_setListAt ss pos _]
          have hlen2 : ∀ q, (Naughty.listAt (Naughty.arrangePosResult cfg
              (Naughty.erasedScreen ss pos 0) Naughty.positionsOrder) q).length ≤
              (Naughty.listAt ss q).length := by
            intro q
            rw [hlist2, arrangedFrom_length, hlistE]
            split
            · rename_i hq
              rw [hq, List.length_eraseIdx]
              split <;> omega
            · exact le_refl _
          have hndE2 : ∀ p, Naughty.idsNodup
              (Naughty.listAt (Naughty.erasedScreen ss pos 0) p) := by
            intro p
            rw [hlistE]
            split
            · exact idsNodup_eraseIdx _ 0 (hnd pos)
            · exact hnd p
          have hhE2 : ∀ p, Naughty.heightsOK
              (Naughty.listAt (Naughty.erasedScreen ss pos 0) p) := by
            intro p
            rw [hlistE]
            split
            · intro n hn
              exact hh pos n (List.mem_of_mem_eraseIdx hn)
            · exact hh p
          have hfitsE2 : ∀ p, Naughty.listFits cfg ss.workarea p
              (Naughty.listAt (Naughty.erasedScreen ss pos 0) p) := by
            intro p
            rw [hlistE]
            split
            · rename_i hq
              rw [hq]
              exact listFits_eraseIdx cfg ss.workarea pos _ 0 hpad hsp
                (hh pos) (hfits pos)
            · exact hfits p
          refine ih (f2 + 1) _
            (Naughty.arrangePosResult cfg (Naughty.erasedScreen ss pos 0)
              Naughty.positionsOrder)
            (List.getElem?_set_self ((List.getElem?_eq_some_iff.mp hss).1))
            ?_ ?_ ?_ ?_ ?_ ?_ ?_ ?_ ?_
          · intro p
            rw [hlist2]
            exact heightsOK_arrangedFrom cfg ss.workarea p _ 0 (hhE2 p)
          · intro p
            rw [hlist2]
            exact idsNodup_arrangedFrom cfg ss.workarea p _ 0 (hndE2 p)
          · intro p
            rw [hwa2, hlist2]
            exact listFits_arrangedFrom cfg ss.workarea p _ (hfitsE2 p)
          · intro p m hm
            rw [hlist2] at hm
            obtain ⟨k, hk⟩ := List.mem_iff_getElem?.mp hm
            rw [arrangedFrom_getElem?] at hk
            cases h0 : (Naughty.listAt (Naughty.erasedScreen ss pos 0) p)[k]? with
            | none =>
              rw [h0] at hk
              exact Option.noConfusion hk
            | some m0 =>
              rw [h0] at hk
              simp only [Option.map_some', Nat.zero_le, if_pos,
                Option.some.injEq] at hk
              have hm0 : m0 ∈ Naughty.listAt (Naughty.erasedScreen ss pos 0) p :=
                List.getElem?_mem h0
              rw [hlistE] at hm0
              have hm0mem : m0 ∈ Naughty.listAt ss p := by
                by_cases hq : p = pos
                · rw [if_pos hq] at hm0
                  rw [hq]
                  exact List.mem_of_mem_eraseIdx hm0
                · rw [if_neg hq] at hm0
                  exact hm0
              obtain ⟨hs0, hp0⟩ := hhome p m0 hm0mem
              constructor
              · rw [← hk]
                exact hs0
              · rw [← hk]
                exact hp0
          · intro p k m hm
            rw [hlist2] at hm
            rw [arrangedFrom_getElem?] at hm
            cases h0 : (Naughty.listAt (Naughty.erasedScreen ss pos 0) p)[k]? with
            | none =>
              rw [h0] at hm
              exact Option.noConfusion hm
            | some m0 =>
              rw [h0] at hm
              simp only [Option.map_some', Nat.zero_le, if_pos,
                Option.some.injEq] at hm
              rw [← hm]
              rfl
          · rw [hwa2]
            exact hfa
          · omega
          · have := hlen2 pos
            rw [hlist2, arrangedFrom_length, hlistE, if_pos rfl,
              List.length_eraseIdx, if_pos (by omega)]
            omega
          · intro p
            have := hlen2 p
            have := hfuel p
            omega

/-- Witness for C3 (amended) at a concrete input: placing a second 60-high
popup at index 2 of a 100-high work area triggers one eviction and then
terminates with a result. -/
theorem c3_eviction_terminates_witness :
    ∃ (st2 : Naughty.St) (off : Naughty.Offset),
      Naughty.get_offset stdCfg 20 c3wSt 1 .top_right
        (some ((2 : Nat) : Int)) (some 20) 60 = .ok (st2, off) :=
  c3_eviction_terminates stdCfg 1 .top_right 20 60 (by decide) (by decide)
    2 20 c3wSt c3wSS (by decide) (by decide) (by decide) (by decide)
    (by decide) (by decide) (by decide) (by decide) (by decide) (by decide)

/-! ## Claim C4: horizontal placement in `get_offset` -/

/-- Counterexample to C4 as stated: on a work area starting at `ws.x = 100`
(width 200), a `top_middle` popup of width 50 is placed at
`x = ws.width/2 - width/2 = 75`, which is not the claimed work-area-centred
`ws.x + (ws.width - width)/2 = 175`: the code omits `ws.x` in the middle
branch. -/
theorem c4_counterexample :
    Naughty.get_offset stdCfg 5 c4St 1 .top_middle (some 1) (some 50) 10 =
      .ok (c4St, { x := 75, y := 4, idx := 1 }) ∧
    (75 : Int) ≠
      c4SS.workarea.x + (c4SS.workarea.width - 50) / 2 := by
  constructor
  · decide
  · decide

/-- Claim C4 (amended): for every screen and every popup that fits at its
queried index, `get_offset` places positions containing "left" flush left plus
padding (`x = ws.x + padding`), positions containing "middle" at
`x = ws.width/2 - width/2` — the work-area origin `ws.x` is not added, so the
popup is centred within the work area only when `ws.x = 0` — and all other
positions at the right edge minus the popup width and padding
(`x = ws.x + ws.width - (width + padding)`). -/
theorem c4_horizontal_placement (cfg : Naughty.Config) (fuel : Nat)
    (st : Naughty.St) (screen : Nat) (pos : Naughty.Position) (idx : Int)
    (w h : Int) (ss : Naughty.ScreenState)
    (hss : st.screens[screen - 1]? = some ss)
    (h1 : 1 ≤ idx) (h2 : idx ≤ (Naughty.listAt ss pos).length + 1)
    (hfit : Naughty.noEvictAt cfg ss.workarea pos (Naughty.listAt ss pos)
      (idx - 1).toNat h) :
    ∃ off : Naughty.Offset,
      Naughty.get_offset cfg (fuel + 1) st screen pos (some idx) (some w) h =
        .ok (st, off) ∧
      (Naughty.posMatchLeft pos = true →
        off.x = ss.workarea.x + cfg.padding) ∧
      (Naughty.posMatchMiddle pos = true →
        off.x = ss.workarea.width / 2 - w / 2) ∧
      (Naughty.posMatchLeft pos = false → Naughty.posMatchMiddle pos = false →
        off.x = ss.workarea.x + ss.workarea.width - (w + cfg.padding)) := by
  refine ⟨_, get_offset_noEvict cfg fuel st screen pos idx w h ss hss h1 h2 hfit,
    ?_, ?_, ?_⟩
  · intro hp
    unfold Naughty.xFor
    rw [if_pos hp]
  · intro hp
    have hnl : Naughty.posMatchLeft pos = false := by
      cases pos <;> simp_all [Naughty.posMatchLeft, Naughty.posMatchMiddle]
    unfold Naughty.xFor
    rw [if_neg (by simp [hnl]), if_pos hp]
  · intro hp hq
    unfold Naughty.xFor
    rw [if_neg (by simp [hp]), if_neg (by simp [hq])]

/-- Witness for C4 (amended) at a concrete input: the middle position. -/
theorem c4_horizontal_placement_witness :
    ∃ off : Naughty.Offset,
      Naughty.get_offset stdCfg 7 c4St 1 .top_middle (some 1) (some 50) 10 =
        .ok (c4St, off) ∧
      (Naughty.posMatchLeft Naughty.Position.top_middle = true →
        off.x = c4SS.workarea.x + stdCfg.padding) ∧
      (Naughty.posMatchMiddle Naughty.Position.top_middle = true →
        off.x = c4SS.workarea.width / 2 - 50 / 2) ∧
      (Naughty.posMatchLeft Naughty.Position.top_middle = false →
        Naughty.posMatchMiddle Naughty.Position.top_middle = false →
        off.x = c4SS.workarea.x + c4SS.workarea.width - (50 + stdCfg.padding)) :=
  c4_horizontal_placement stdCfg 6 c4St 1 .top_middle 1 50 10 c4SS
    (by decide) (by decide) (by decide) (by decide)

/-! ## Claim C2: replacing a notification by id -/

/-- Counterexample to C2 as stated: `c2old` (id 6) is present in the
`top_right` list of `c2St` (it was created while notifications were suspended,
so its widget is invisible).  Calling `notify` with `replaces_id = 6` returns
a new notification that reuses id 6, but the old notification is not
destroyed: `naughty.destroy` refuses invisible popups, so `c2old` stays in the
per-screen per-position list (and in the suspended list), and the state ends
with two notifications carrying id 6. -/
theorem c2_counterexample :
    Naughty.notify_core stdCfg 20 c2St c2args = .ok (c2final, c2new) ∧
    c2new.id = 6 ∧
    Naughty.getById c2St 6 = some c2old ∧
    (Naughty.allNotifs c2final).countP (fun m => m.id == 6) = 2 ∧
    (Naughty.allNotifs c2St).countP (fun m => m.id == 6) = 1 := by
  refine ⟨by decide, by decide, by decide, by decide, by decide⟩

/-- Claim C2 (amended): when `naughty.notify` is called with a `replaces_id`
naming a notification whose popup is visible (and the call targets that
notification's screen, the stored lists fit the work area, and the new popup
fits after the re-arrange), the old notification is destroyed with the
`silent` reason — the callback log is unchanged — the returned notification
reuses the id (and the counter does not advance), and the final screen holds
the re-arranged lists of the erased screen with the new popup appended to its
position's list. -/
theorem c2_notify_replaces_visible (cfg : Naughty.Config) (fuel : Nat)
    (st : Naughty.St) (args : Naughty.NotifyArgs) (rid : Nat)
    (obj : Naughty.Notif) (ss : Naughty.ScreenState) (i : Nat)
    (hrid : args.replaces_id = some rid)
    (hobj : Naughty.getById st rid = some obj)
    (hv : obj.visible = true)
    (hctr : ∀ m ∈ Naughty.allNotifs st, m.id ≤ st.counter)
    (hsc : args.screen = obj.screen)
    (hss : st.screens[obj.screen - 1]? = some ss)
    (hidx : obj.idx = (i : Int) + 1)
    (hmem : (Naughty.listAt ss obj.position)[i]? = some obj)
    (hpad : 0 ≤ cfg.padding) (hsp : 0 ≤ cfg.spacing)
    (hh : ∀ p, Naughty.heightsOK (Naughty.listAt ss p))
    (hnd : ∀ p, Naughty.idsNodup (Naughty.listAt ss p))
    (hfits : ∀ p, Naughty.listFits cfg ss.workarea p (Naughty.listAt ss p))
    (hnew : Naughty.noEvictAt cfg ss.workarea args.position
      (Naughty.listAt (Naughty.arrangePosResult cfg
        (Naughty.erasedScreen ss obj.position i) Naughty.positionsOrder)
        args.position)
      (Naughty.listAt (Naughty.arrangePosResult cfg
        (Naughty.erasedScreen ss obj.position i) Naughty.positionsOrder)
        args.position).length
      (notifySize cfg args ss.workarea).2)
    (hfuel : ∀ p, (Naughty.listAt ss p).length + 12 ≤ fuel) :
    ∃ (stF : Naughty.St) (nF : Naughty.Notif),
      Naughty.notify_core cfg fuel st args = .ok (stF, nF) ∧
      nF.id = rid ∧
      stF.counter = st.counter ∧
      stF.cbLog = st.cbLog ∧
      stF.screens = st.screens.set (obj.screen - 1)
        (Naughty.setListAt (Naughty.arrangePosResult cfg
          (Naughty.erasedScreen ss obj.position i) Naughty.positionsOrder)
          args.position
          (Naughty.listAt (Naughty.arrangePosResult cfg
            (Naughty.erasedScreen ss obj.position i) Naughty.positionsOrder)
            args.position ++ [nF])) := by
  have hobjid : obj.id = rid := by
    have h1 := List.find?_some hobj
    simpa using h1
  have hobjmem : obj ∈ Naughty.allNotifs st := List.mem_of_find?_eq_some hobj
  have hrc : rid ≤ st.counter := hobjid ▸ hctr obj hobjmem
  have hscr : obj.screen - 1 < st.screens.length :=
    (List.getElem?_eq_some_iff.mp hss).1
  have hndE : ∀ p, Naughty.idsNodup
      (Naughty.listAt (Naughty.erasedScreen ss obj.position i) p) := by
    intro p
    unfold Naughty.erasedScreen
    rw [listAt_setListAt]
    split
    · exact idsNodup_eraseIdx _ i (hnd obj.position)
    · exact hnd p
  have hfitsE : ∀ p, Naughty.listFits cfg ss.workarea p
      (Naughty.listAt (Naughty.erasedScreen ss obj.position i) p) := by
    intro p
    unfold Naughty.erasedScreen
    rw [listAt_setListAt]
    split
    · rename_i hq
      subst hq
      exact listFits_eraseIdx cfg ss.workarea obj.position _ i hpad hsp
        (hh obj.position) (hfits obj.position)
    · exact hfits p
  set SE := Naughty.arrangePosResult cfg
    (Naughty.erasedScreen ss obj.position i) Naughty.positionsOrder with hSE
  cases fuel with
  | zero => exact absurd (hfuel .top_left) (by omega)
  | succ f =>
  have hdes := destroy_noEvict cfg (f + 1) st obj (some Naughty.silent) ss i
    hss hv hidx hmem hndE hfitsE (fun p => by have := hfuel p; omega)
  rw [← hSE] at hdes
  have hcbF : ¬(obj.hasDestroyCb = true ∧
      (some Naughty.silent : Option Int) ≠ some Naughty.silent) := by simp
  rw [if_neg hcbF] at hdes
  have hgetE : (st.screens.set (obj.screen - 1) SE)[obj.screen - 1]? =
      some SE := List.getElem?_set_self hscr
  have hwaE : SE.workarea = ss.workarea := by
    rw [hSE, workarea_arrangePosResult]
    exact workarea_setListAt ss obj.position _
  have hnew2 : Naughty.noEvictAt cfg SE.workarea args.position
      (Naughty.listAt SE args.position) (Naughty.listAt SE args.position).length
      ((Naughty.crop_to_workarea cfg.padding args.border_width ss.workarea
        args.contentWidth args.contentHeight).2 + 2 * args.border_width) := by
    rw [hwaE]
    have h0 := hnew
    simp only [notifySize] at h0
    exact h0
  have hoff := get_offset_nil_noEvict cfg f
    ({ screens := st.screens.set (obj.screen - 1) SE,
       suspendedL := (if st.suspendedFlag then
         Naughty.removeFirstById obj.id st.suspendedL else st.suspendedL),
       suspendedFlag := st.suspendedFlag, counter := st.counter,
       cbLog := st.cbLog } : Naughty.St)
    obj.screen args.position
    ((Naughty.crop_to_workarea cfg.padding args.border_width ss.workarea
      args.contentWidth args.contentHeight).1 + 2 * args.border_width)
    ((Naughty.crop_to_workarea cfg.padding args.border_width ss.workarea
      args.contentWidth args.contentHeight).2 + 2 * args.border_width)
    SE hgetE hnew2
  apply Exists.intro
  apply Exists.intro
  refine ⟨?_, ?_, ?_, ?_, ?_⟩
  · simp only [Naughty.notify_core, hrid, hobj, hdes, hsc]
    rw [if_pos hrc]
    simp only [hgetE, hwaE]
    simp only [hoff, hgetE]
    rfl
  · simp only [set_timeout_id]
  · cases hsusp : st.suspendedFlag <;> simp [hsusp]
  · cases hsusp : st.suspendedFlag <;> simp [hsusp]
  · cases hsusp : st.suspendedFlag <;> simp [hsusp, List.set_set]

/-- Witness for C2 (amended) at a concrete input: replacing the visible
notification of id 3 returns a new notification reusing id 3, leaves the
callback log and the counter unchanged, and the final screen holds the
rearranged erased list with the new popup appended. -/
theorem c2_notify_replaces_visible_witness :
    ∃ (stF : Naughty.St) (nF : Naughty.Notif),
      Naughty.notify_core stdCfg 20 c2wSt c2wArgs = .ok (stF, nF) ∧
      nF.id = 3 ∧
      stF.counter = c2wSt.counter ∧
      stF.cbLog = c2wSt.cbLog ∧
      stF.screens = c2wSt.screens.set (c2wOld.screen - 1)
        (Naughty.setListAt (Naughty.arrangePosResult stdCfg
          (Naughty.erasedScreen c2wSS c2wOld.position 0) Naughty.positionsOrder)
          c2wArgs.position
          (Naughty.listAt (Naughty.arrangePosResult stdCfg
            (Naughty.erasedScreen c2wSS c2wOld.position 0) Naughty.positionsOrder)
            c2wArgs.position ++ [nF])) :=
  c2_notify_replaces_visible stdCfg 20 c2wSt c2wArgs 3 c2wOld c2wSS 0
    (by decide) (by decide) (by decide) (by decide) (by decide) (by decide)
    (by decide) (by decide) (by decide) (by decide) (by decide) (by decide)
    (by decide) (by decide) (by decide)

/-! ## Claim C5: destroying a notification and its siblings -/

/-- Counterexample to C5 as stated: in `c5St` (three visible stacked popups,
the third reaching below the work area), destroying the notification at list
index 1 (`c5a`) does not remove exactly that entry: the re-arrange evicts the
sibling `c5b` as well (its recomputed stack would overflow through `c5c`), the
final list holds one entry instead of two, and `c5b` is gone from the state
although only `c5a` was destroyed. -/
theorem c5_counterexample :
    Naughty.destroy stdCfg 30 c5St (some c5a) (some 2) = .ok (c5final, true) ∧
    (c5final.screens.map (fun ss => (Naughty.listAt ss .top_right).length)) =
      [1] ∧
    (c5St.screens.map (fun ss => (Naughty.listAt ss .top_right).length)) =
      [3] ∧
    (1 : Nat) ≠ 3 - 1 ∧
    Naughty.getById c5St 2 = some c5b ∧
    Naughty.getById c5final 2 = none := by
  refine ⟨by decide, by decide, by decide, by decide, by decide, by decide⟩

/-- Claim C5 (amended: provided every list of the screen fits the work area —
so that the re-arrangement triggers no eviction — displayed positions agree
with the layout algorithm, ids are distinct, and padding, spacing and heights
are nonnegative): destroying the visible notification stored at 1-based index
`i + 1` removes exactly that entry; every former sibling at a larger index
moves toward the position's anchor edge by exactly the destroyed
notification's height plus the configured spacing (its displayed `y` is
reduced by that amount for top positions and increased by it for bottom
positions) and its stored index drops by one; siblings at smaller indices and
all other position lists are unchanged. -/
theorem c5_destroy_sibling_shift (cfg : Naughty.Config) (fuel : Nat)
    (st : Naughty.St) (n : Naughty.Notif) (reason : Option Int)
    (ss : Naughty.ScreenState) (i : Nat)
    (hss : st.screens[n.screen - 1]? = some ss)
    (hv : n.visible = true)
    (hidx : n.idx = (i : Int) + 1)
    (hmem : (Naughty.listAt ss n.position)[i]? = some n)
    (hpad : 0 ≤ cfg.padding) (hsp : 0 ≤ cfg.spacing)
    (hh : ∀ p, Naughty.heightsOK (Naughty.listAt ss p))
    (hnd : ∀ p, Naughty.idsNodup (Naughty.listAt ss p))
    (hfits : ∀ p, Naughty.listFits cfg ss.workarea p (Naughty.listAt ss p))
    (harranged : ∀ p, Naughty.listAt ss p =
      Naughty.arrangedFrom cfg ss.workarea p (Naughty.listAt ss p) 0)
    (hfuel : ∀ p, (Naughty.listAt ss p).length + 10 ≤ fuel) :
    ∃ stF : Naughty.St,
      Naughty.destroy cfg fuel st (some n) reason = .ok (stF, true) ∧
      ∃ ssF : Naughty.ScreenState,
        stF.screens[n.screen - 1]? = some ssF ∧
        (Naughty.listAt ssF n.position).length =
          (Naughty.listAt ss n.position).length - 1 ∧
        (∀ k : Nat, k < i →
          (Naughty.listAt ssF n.position)[k]? =
            (Naughty.listAt ss n.position)[k]?) ∧
        (∀ (k : Nat) (m : Naughty.Notif), i ≤ k →
          (Naughty.listAt ss n.position)[k + 1]? = some m →
          (Naughty.listAt ssF n.position)[k]? = some { m with
            boxY := (if Naughty.posMatchTop n.position then
              m.boxY - (n.height + cfg.spacing)
              else m.boxY + (n.height + cfg.spacing)),
            idx := (k : Int) + 1 }) ∧
        (∀ q : Naughty.Position, q ≠ n.position →
          Naughty.listAt ssF q = Naughty.listAt ss q) := by
  have hlen : i < (Naughty.listAt ss n.position).length :=
    (List.getElem?_eq_some_iff.mp hmem).1
  have hscr : n.screen - 1 < st.screens.length :=
    (List.getElem?_eq_some_iff.mp hss).1
  set l := Naughty.listAt ss n.position with hl
  have hlistE : ∀ q : Naughty.Position,
      Naughty.listAt (Naughty.erasedScreen ss n.position i) q =
        (if q = n.position then l.eraseIdx i else Naughty.listAt ss q) := by
    intro q
    unfold Naughty.erasedScreen
    rw [listAt_setListAt]
  have hndE : ∀ p, Naughty.idsNodup
      (Naughty.listAt (Naughty.erasedScreen ss n.position i) p) := by
    intro p
    rw [hlistE p]
    split
    · exact idsNodup_eraseIdx l i (hnd n.position)
    · exact hnd p
  have hfitsE : ∀ p, Naughty.listFits cfg ss.workarea p
      (Naughty.listAt (Naughty.erasedScreen ss n.position i) p) := by
    intro p
    rw [hlistE p]
    split
    · rename_i hq
      subst hq
      exact listFits_eraseIdx cfg ss.workarea n.position l i hpad hsp
        (hh n.position) (hfits n.position)
    · exact hfits p
  have hdes := destroy_noEvict cfg fuel st n reason ss i hss hv hidx hmem
    hndE hfitsE hfuel
  refine ⟨_, hdes, ?_⟩
  have hwaE : (Naughty.erasedScreen ss n.position i).workarea = ss.workarea :=
    workarea_setListAt _ _ _
  refine ⟨Naughty.arrangePosResult cfg (Naughty.erasedScreen ss n.position i)
    Naughty.positionsOrder, List.getElem?_set_self hscr, ?_, ?_, ?_, ?_⟩
  · rw [listAt_arrangeScreen, arrangedFrom_length, hlistE, if_pos rfl,
      List.length_eraseIdx]
    rw [if_pos hlen]
  · intro k hk
    rw [listAt_arrangeScreen, hwaE, hlistE, if_pos rfl]
    rw [arrangedFrom_getElem?]
    rw [getElem?_eraseIdx_lt l i k hk]
    have hsum : Naughty.existingSum cfg (l.eraseIdx i) k =
        Naughty.existingSum cfg l k :=
      existingSum_eraseIdx_lt cfg l i k (by omega)
    cases hlk : l[k]? with
    | none => rfl
    | some m =>
      simp only [Option.map_some']
      rw [if_pos (Nat.zero_le k)]
      have harr0 : (Naughty.arrangedFrom cfg ss.workarea n.position l 0)[k]? =
          some (Naughty.arrangeEntry cfg ss.workarea n.position l k m) := by
        rw [arrangedFrom_getElem?, hlk]
        simp
      have hfix : m = Naughty.arrangeEntry cfg ss.workarea n.position l k m := by
        have h2 : l[k]? =
            (Naughty.arrangedFrom cfg ss.workarea n.position l 0)[k]? := by
          conv_lhs => rw [hl, harranged n.position, ← hl]
        rw [hlk, harr0] at h2
        exact Option.some.injEq _ _ |>.mp h2
      rw [arrangeEntry_congr cfg ss.workarea n.position _ l k m hsum]
      rw [← hfix]
  · intro k m hki hm
    rw [listAt_arrangeScreen, hwaE, hlistE, if_pos rfl]
    rw [arrangedFrom_getElem?]
    rw [getElem?_eraseIdx_ge l i k hki, hm]
    simp only [Option.map_some']
    rw [if_pos (Nat.zero_le k)]
    have harr1 : (Naughty.arrangedFrom cfg ss.workarea n.position l 0)[k + 1]? =
        some (Naughty.arrangeEntry cfg ss.workarea n.position l (k + 1) m) := by
      rw [arrangedFrom_getElem?, hm]
      simp
    have hfix : m = Naughty.arrangeEntry cfg ss.workarea n.position l (k + 1) m := by
      have h2 : l[k + 1]? =
          (Naughty.arrangedFrom cfg ss.workarea n.position l 0)[k + 1]? := by
        conv_lhs => rw [hl, harranged n.position, ← hl]
      rw [hm, harr1] at h2
      exact Option.some.injEq _ _ |>.mp h2
    have hbx : m.boxX = Naughty.xFor cfg ss.workarea n.position m.width := by
      conv_lhs => rw [hfix]
      rfl
    have hby : m.boxY = Naughty.yFor cfg ss.workarea n.position
        (Naughty.existingSum cfg l (k + 1)) m.height := by
      conv_lhs => rw [hfix]
      rfl
    have hde : Naughty.existingSum cfg (l.eraseIdx i) k =
        Naughty.existingSum cfg l (k + 1) - (n.height + cfg.spacing) :=
      existingSum_eraseIdx_ge cfg l i k n hki hmem
    refine congrArg some ?_
    unfold Naughty.arrangeEntry
    rw [← hbx, hde]
    have hyy : Naughty.yFor cfg ss.workarea n.position
        (Naughty.existingSum cfg l (k + 1) - (n.height + cfg.spacing)) m.height =
        (if Naughty.posMatchTop n.position then
          m.boxY - (n.height + cfg.spacing)
          else m.boxY + (n.height + cfg.spacing)) := by
      rw [hby]
      unfold Naughty.yFor
      cases Naughty.posMatchTop n.position <;> simp <;> ring
    rw [hyy]
  · intro q hq
    rw [listAt_arrangeScreen, hwaE, hlistE, if_neg hq]
    exact (harranged q).symm

/-- Witness for C5 (amended) at a concrete input: destroying the first of two
arranged popups shifts the second up by its height plus spacing. -/
theorem c5_destroy_sibling_shift_witness :
    ∃ stF : Naughty.St,
      Naughty.destroy stdCfg 20 c5wSt (some c5wA) (some 2) = .ok (stF, true) ∧
      ∃ ssF : Naughty.ScreenState,
        stF.screens[c5wA.screen - 1]? = some ssF ∧
        (Naughty.listAt ssF c5wA.position).length =
          (Naughty.listAt c5wSS c5wA.position).length - 1 ∧
        (∀ k : Nat, k < 0 →
          (Naughty.listAt ssF c5wA.position)[k]? =
            (Naughty.listAt c5wSS c5wA.position)[k]?) ∧
        (∀ (k : Nat) (m : Naughty.Notif), 0 ≤ k →
          (Naughty.listAt c5wSS c5wA.position)[k + 1]? = some m →
          (Naughty.listAt ssF c5wA.position)[k]? = some { m with
            boxY := (if Naughty.posMatchTop c5wA.position then
              m.boxY - (c5wA.height + stdCfg.spacing)
              else m.boxY + (c5wA.height + stdCfg.spacing)),
            idx := (k : Int) + 1 }) ∧
        (∀ q : Naughty.Position, q ≠ c5wA.position →
          Naughty.listAt ssF q = Naughty.listAt c5wSS q) :=
  c5_destroy_sibling_shift stdCfg 20 c5wSt c5wA (some 2) c5wSS 0
    (by decide) (by decide) (by decide) (by decide) (by decide) (by decide)
    (by decide) (by decide) (by decide) (by decide) (by decide)
theorem c10_destroy_invisible_noop_witness :
    Naughty.destroy { padding := 4, spacing := 1 } 1
      { screens := [], suspendedL := [], suspendedFlag := false,
        counter := 0, cbLog := [] }
      (some { c7notif with visible := false }) none =
      .ok ({ screens := [], suspendedL := [], suspendedFlag := false,
             counter := 0, cbLog := [] }, false) :=
  (c10_destroy_invisible_noop { padding := 4, spacing := 1 }
    { screens := [], suspendedL := [], suspendedFlag := false,
      counter := 0, cbLog := [] }
    { c7notif with visible := false } none rfl).1 0

end AwesomeSrc
